import Mathlib

/-!
Verification of the image reconciliation engine of the leaselab-baserow-D1-worker
repository (src/images.ts, third and final revision of the module, together with
src/utils.ts and src/google-drive.ts).

The embedding models:
  * the D1 `image_sync_records` ledger (`Ledger`, `getImageSyncRecord`,
    `upsertImageSyncRecord`) including the SQL `ORDER BY id DESC LIMIT 1`
    lookup and the UPDATE-vs-INSERT upsert;
  * the R2 bucket as a key-to-object map carrying the `x-hash-md5` custom
    metadata, with an operation log recording every put / delete / head /
    download / resize-fetch the code performs;
  * `optimizeImage` (single Cloudflare Image Resizing attempt, temp-key
    upload, 5 percent minimum-reduction rule);
  * the per-file body of `processImagesFromFolder` (drift checks on
    processed records, failed-record recovery, size cap, WebP renaming,
    upload, record upsert, per-file catch) and the surrounding loop;
  * `deleteRowImages` (cascade eviction).

JavaScript value subtleties are modeled faithfully: a missing
`md5Checksum` is `undefined` while a missing DB `md5_hash` is `null`, and
`null === undefined` is false, so cross-absent hashes are never equal
(`jsEqOpt`); JS truthiness of optional strings treats the empty string as
false (`truthyS`); `x || y` on strings falls back on falsy (`orNullS`).

External I/O is abstracted into a deterministic environment `SyncEnv`:
`listFiles` is the Drive listing (already name-sorted by the collaborator),
`download` returns the byte length of a file or `none` when the download
throws, and `resizeFetch` is the outcome of the Cloudflare Image Resizing
fetch inside `optimizeImage` (`none` = non-ok / timeout / error). Bucket
puts and deletes inside `processImagesFromFolder` are modeled as
succeeding; `deleteRowImages` takes an explicit failure oracle because the
source handles throwing deletes there. Timestamps are abstracted to
`SyncEnv.nowTag`. The float comparisons `x < y * 0.95` and `x < y * 0.8`
are modeled as the exact rationals `100 * x < 95 * y` and
`100 * x < 80 * y`. The write-back of URLs onto the owning row
(`updateRowWithR2Urls`) touches only the excluded row store and is not part
of the modeled state.
-/

namespace LeaseLab

/-- A remote file as returned by the Drive listing (src/types.ts
`DriveFile`); `md5Checksum` is `none` when the API omits it
(JS `undefined`). -/
structure DriveFile where
  id : String
  name : String
  mimeType : String
  md5Checksum : Option String
deriving DecidableEq

/-- Status column of `image_sync_records`. -/
inductive SyncStatus where
  | processed
  | failed
  | pending
deriving DecidableEq

/-- One row of the `image_sync_records` D1 table (src/types.ts
`ImageSyncRecord`, minus the surrogate `id` which the ledger carries
separately). `none` models SQL NULL. -/
structure ImageSyncRecord where
  google_drive_file_id : String
  google_drive_folder_id : String
  r2_url : Option String
  r2_key : Option String
  table_id : Nat
  row_id : Nat
  field_name : String
  original_size : Option Nat
  optimized_size : Option Nat
  status : SyncStatus
  processed_at : Option String
  error_message : Option String
  md5_hash : Option String
  file_name : String
deriving DecidableEq

/-- An R2 object as far as the sync logic observes it: the `x-hash-md5`
custom metadata (absent when the upload had no checksum). -/
structure R2Obj where
  hashMd5 : Option String
deriving DecidableEq

/-- JS truthiness of a `string | null | undefined` value: `null`,
`undefined` and the empty string are falsy. -/
def truthyS : Option String → Bool
  | some s => s != ""
  | none => false

/-- JS strict equality `a === b` where one side is `string | null` and the
other `string | undefined`: true only when both are present and equal
(`null === undefined` is false). -/
def jsEqOpt : Option String → Option String → Bool
  | some a, some b => a == b
  | _, _ => false

/-- JS `v || null` on an optional string: keep it when truthy, else null. -/
def orNullS (o : Option String) : Option String :=
  if truthyS o then o else none

/-- `shouldConvertToWebP` from src/images.ts: JPEG and PNG inputs are
eligible for WebP conversion. -/
def shouldConvertToWebP (mimeType : String) : Bool :=
  mimeType == "image/jpeg" || mimeType == "image/png"

/-- JS `String.prototype.startsWith`, computed on the character lists so
that concrete runs reduce inside the kernel. -/
def strStartsWith (s pre : String) : Bool :=
  pre.data.isPrefixOf s.data

/-- JS `String.prototype.endsWith`, computed on the character lists. -/
def strEndsWith (s suf : String) : Bool :=
  suf.data.isSuffixOf s.data

/-- Character class `[a-zA-Z0-9._-]` of the filename sanitizer. -/
def isKeyChar (c : Char) : Bool :=
  c.isAlphanum || c == '.' || c == '_' || c == '-'

/-- `file.name.replace(/[^a-zA-Z0-9._-]/g, "_")` from the upload path. -/
def sanitizeFilename (s : String) : String :=
  String.mk (s.data.map fun c => if isKeyChar c then c else '_')

/-- Lower-case a string character-wise (JS `toLowerCase` on ASCII names). -/
def toLowerStr (s : String) : String :=
  String.mk (s.data.map Char.toLower)

/-- Test `sanitizedFilename.toLowerCase().endsWith(".webp")`. -/
def endsWithWebpLower (s : String) : Bool :=
  strEndsWith (toLowerStr s) ".webp"

/-- `sanitizedFilename.replace(/\.[^.]+$/, ".webp")`: replace a final
dot-extension (at least one non-dot character after the last dot) with
`.webp`; otherwise return the string unchanged. -/
def replaceLastExt (s : String) : String :=
  let rev := s.data.reverse
  let ext := rev.takeWhile (fun c => c != '.')
  if ext.length == 0 then s
  else
    match rev.drop ext.length with
    | '.' :: restRev => String.mk restRev.reverse ++ ".webp"
    | _ => s

/-- Character class `[A-Za-z0-9_\-]` of the Drive folder-id patterns. -/
def isIdChar (c : Char) : Bool :=
  c.isAlphanum || c == '_' || c == '-'

/-- Scan for the first `/folders/<id>` occurrence (regex
`\/folders\/([A-Za-z0-9_\-]+)` of `extractDriveFolderId`). -/
def findFolderIdAux : List Char → Option String
  | [] => none
  | c :: rest =>
    let cs := c :: rest
    if "/folders/".data.isPrefixOf cs then
      let cap := (cs.drop 9).takeWhile isIdChar
      if cap.isEmpty then findFolderIdAux rest else some (String.mk cap)
    else findFolderIdAux rest

/-- `extractDriveFolderId` from src/utils.ts: empty input is falsy; first
try the `/folders/<id>` pattern, then accept a bare id of at least ten
allowed characters. -/
def extractDriveFolderId (url : String) : Option String :=
  if url == "" then none
  else
    match findFolderIdAux url.data with
    | some fid => some fid
    | none =>
      if url.data.all isIdChar && url.length ≥ 10 then some url else none

/-- The ledger: `image_sync_records` rows paired with their surrogate ids,
in insertion order, plus the next id the database would assign. -/
structure Ledger where
  rows : List (Nat × ImageSyncRecord)
  nextId : Nat
deriving DecidableEq

/-- The row with the greatest id among those whose
`google_drive_file_id` matches (SQL `ORDER BY id DESC LIMIT 1`). -/
def lookupMax : List (Nat × ImageSyncRecord) → String → Option (Nat × ImageSyncRecord)
  | [], _ => none
  | p :: ps, fid =>
    let rest := lookupMax ps fid
    if p.2.google_drive_file_id == fid then
      match rest with
      | none => some p
      | some q => if q.1 ≤ p.1 then some p else some q
    else rest

/-- `getImageSyncRecord` from src/images.ts. -/
def getImageSyncRecord (L : Ledger) (fid : String) : Option ImageSyncRecord :=
  (lookupMax L.rows fid).map Prod.snd

/-- Field update performed by the SQL UPDATE branch of
`upsertImageSyncRecord`: it sets exactly the mutable columns and leaves the
identity columns (file id, folder id, table, row, field name, file name) of
the stored row untouched. -/
def applyUpdate (old new : ImageSyncRecord) : ImageSyncRecord :=
  { old with
    r2_url := new.r2_url
    r2_key := new.r2_key
    original_size := new.original_size
    optimized_size := new.optimized_size
    status := new.status
    processed_at := new.processed_at
    error_message := new.error_message
    md5_hash := new.md5_hash }

/-- Effect of the SQL UPDATE on one stored row: rows whose
`google_drive_file_id` matches get `applyUpdate`, the rest are untouched. -/
def updRow (rec : ImageSyncRecord) (p : Nat × ImageSyncRecord) : Nat × ImageSyncRecord :=
  if p.2.google_drive_file_id == rec.google_drive_file_id then
    (p.1, applyUpdate p.2 rec)
  else p

/-- `upsertImageSyncRecord` from src/images.ts: look the id up first;
UPDATE every row with that `google_drive_file_id` when one exists,
otherwise INSERT a fresh row. -/
def upsertImageSyncRecord (L : Ledger) (rec : ImageSyncRecord) : Ledger :=
  match getImageSyncRecord L rec.google_drive_file_id with
  | some _ => { L with rows := L.rows.map (updRow rec) }
  | none => ⟨L.rows ++ [(L.nextId, rec)], L.nextId + 1⟩

/-- Log of externally visible operations of one or more passes. -/
structure OpLog where
  puts : List String
  deletes : List String
  heads : List String
  downloads : List String
  fetches : List String
deriving DecidableEq

/-- The empty operation log. -/
def OpLog.empty : OpLog := ⟨[], [], [], [], []⟩

/-- The state a sync pass reads and writes: the ledger, the bucket
contents, and the operation log. -/
structure World where
  ledger : Ledger
  bucket : String → Option R2Obj
  log : OpLog

/-- `bucket.put(key, ...)`: overwrite semantics, and record the write. -/
def putOp (w : World) (k : String) (o : R2Obj) : World :=
  { w with
    bucket := fun k' => if k' = k then some o else w.bucket k'
    log := { w.log with puts := w.log.puts ++ [k] } }

/-- `bucket.delete(key)`: remove the object and record the delete. -/
def delOp (w : World) (k : String) : World :=
  { w with
    bucket := fun k' => if k' = k then none else w.bucket k'
    log := { w.log with deletes := w.log.deletes ++ [k] } }

/-- Record a `bucket.head(key)` probe. -/
def headLog (w : World) (k : String) : World :=
  { w with log := { w.log with heads := w.log.heads ++ [k] } }

/-- Record a Drive download attempt. -/
def downloadLog (w : World) (fid : String) : World :=
  { w with log := { w.log with downloads := w.log.downloads ++ [fid] } }

/-- Record one Image Resizing fetch (one transform attempt). -/
def fetchLog (w : World) (fid : String) : World :=
  { w with log := { w.log with fetches := w.log.fetches ++ [fid] } }

/-- Replace the ledger after an upsert. -/
def upsertW (w : World) (rec : ImageSyncRecord) : World :=
  { w with ledger := upsertImageSyncRecord w.ledger rec }

/-- Deterministic environment of a sync pass: configuration, the Drive
collaborator, and the Image Resizing fetch outcome. -/
structure SyncEnv where
  listFiles : String → List DriveFile
  download : String → Option Nat
  resizeFetch : String → Option Nat
  hasCredentials : Bool
  maxImageSize : Nat
  r2PublicDomain : String
  nowTag : String

/-- `optimizeImage` from src/images.ts (third revision): upload the
original to a temp key, make exactly one Image Resizing fetch, delete the
temp key in every branch, and return the optimized bytes only when they are
at least five percent smaller; every failure falls back to the original.
The first component is the resulting byte length, the second whether a new
(optimized) buffer was returned. -/
def optimizeImage (env : SyncEnv) (fileId : String) (origSize : Nat)
    (tempKey : String) (w : World) : (Nat × Bool) × World :=
  let w₁ := fetchLog (putOp w tempKey ⟨none⟩) fileId
  match env.resizeFetch fileId with
  | none => ((origSize, false), delOp w₁ tempKey)
  | some n =>
    if 100 * n < 95 * origSize then ((n, true), delOp w₁ tempKey)
    else ((origSize, false), delOp w₁ tempKey)

/-- The temp key `temp/tableId/rowId/Date.now()-file.id` used by the
optimization step (the timestamp abstracted to `nowTag`). -/
def tempKeyFor (env : SyncEnv) (tableId rowId : Nat) (f : DriveFile) : String :=
  "temp/" ++ toString tableId ++ "/" ++ toString rowId ++ "/" ++ env.nowTag ++ "-" ++ f.id

/-- Error message stored when the Drive download throws (the transport
detail of the thrown error is abstracted away). -/
def dlErrorMsg : String := "Download failed"

/-- Error message of the size-cap rejection. -/
def sizeErrorMsg (s m : Nat) : String :=
  "File size " ++ toString s ++ " exceeds maximum " ++ toString m

/-- The failed record written by the per-file catch handler and by the
size-cap branch. -/
def baseFailed (env : SyncEnv) (folderId : String) (tableId rowId : Nat)
    (fieldName : String) (f : DriveFile) (osize : Option Nat) (msg : String) :
    ImageSyncRecord :=
  { google_drive_file_id := f.id
    google_drive_folder_id := folderId
    r2_url := none
    r2_key := none
    table_id := tableId
    row_id := rowId
    field_name := fieldName
    original_size := osize
    optimized_size := none
    status := .failed
    processed_at := some env.nowTag
    error_message := some msg
    md5_hash := orNullS f.md5Checksum
    file_name := f.name }

/-- The processed record written after a successful upload. -/
def processedRec (env : SyncEnv) (folderId : String) (tableId rowId : Nat)
    (fieldName : String) (f : DriveFile) (origSize optSize : Nat)
    (url key : String) : ImageSyncRecord :=
  { google_drive_file_id := f.id
    google_drive_folder_id := folderId
    r2_url := some url
    r2_key := some key
    table_id := tableId
    row_id := rowId
    field_name := fieldName
    original_size := some origSize
    optimized_size := some optSize
    status := .processed
    processed_at := some env.nowTag
    error_message := none
    md5_hash := orNullS f.md5Checksum
    file_name := f.name }

/-- The record written when a failed record is recovered because its R2
object still exists: status promoted to processed, the stored URL and key
reused, `md5_hash` set to `file.md5Checksum || existingRecord.md5_hash`. -/
def recoveredRecord (env : SyncEnv) (rec : ImageSyncRecord) (folderId : String)
    (tableId rowId : Nat) (fieldName : String) (f : DriveFile) : ImageSyncRecord :=
  { google_drive_file_id := f.id
    google_drive_folder_id := folderId
    r2_url := rec.r2_url
    r2_key := rec.r2_key
    table_id := tableId
    row_id := rowId
    field_name := fieldName
    original_size := rec.original_size
    optimized_size := rec.optimized_size
    status := .processed
    processed_at := some env.nowTag
    error_message := none
    md5_hash := if truthyS f.md5Checksum then f.md5Checksum else rec.md5_hash
    file_name := f.name }

/-- The download-and-upload tail of the per-file loop body: download (the
throw is modeled as `none`), size cap, `optimizeImage`, the caller-side
re-check of the optimization result and WebP decision, key derivation with
extension rewrite, upload with `x-hash-md5` metadata, and the record
upsert. -/
def reprocessFile (env : SyncEnv) (folderId : String) (tableId rowId : Nat)
    (fieldName : String) (f : DriveFile) (w : World) : Option String × World :=
  let w₁ := downloadLog w f.id
  match env.download f.id with
  | none =>
    (none, upsertW w₁ (baseFailed env folderId tableId rowId fieldName f none dlErrorMsg))
  | some size =>
    if env.maxImageSize < size then
      (none, upsertW w₁
        (baseFailed env folderId tableId rowId fieldName f (some size)
          (sizeErrorMsg size env.maxImageSize)))
    else
      let tempKey := tempKeyFor env tableId rowId f
      let r := optimizeImage env f.id size tempKey w₁
      let optSize := r.1.1
      let isNew := r.1.2
      let w₂ := r.2
      let smaller := isNew && decide (100 * optSize < 95 * size)
      let webp := smaller && shouldConvertToWebP f.mimeType &&
        decide (100 * optSize < 80 * size)
      let finalSize := if smaller then optSize else size
      let finalMime := if webp then "image/webp" else f.mimeType
      let name₀ := sanitizeFilename f.name
      let name₁ :=
        if finalMime == "image/webp" && !endsWithWebpLower name₀ then
          replaceLastExt name₀
        else name₀
      let r2Key := toString tableId ++ "/" ++ toString rowId ++ "/" ++ name₁
      let w₃ := putOp w₂ r2Key ⟨orNullS f.md5Checksum⟩
      let r2Url := env.r2PublicDomain ++ "/" ++ r2Key
      let w₄ := upsertW w₃
        (processedRec env folderId tableId rowId fieldName f size finalSize r2Url r2Key)
      (some r2Url, w₄)

/-- The per-file loop body of `processImagesFromFolder` (third revision):
drift checks on processed records, cheap recovery of failed records whose
R2 object still exists, and otherwise the full reprocess tail. Returns the
URL pushed onto `r2Urls` (if any) and the new state. -/
def processFile (env : SyncEnv) (folderId : String) (tableId rowId : Nat)
    (fieldName : String) (f : DriveFile) (w : World) : Option String × World :=
  match getImageSyncRecord w.ledger f.id with
  | none => reprocessFile env folderId tableId rowId fieldName f w
  | some rec =>
    match rec.status with
    | .processed =>
      if truthyS rec.r2_key then
        let k := rec.r2_key.getD ""
        let w₁ := headLog w k
        match w.bucket k with
        | none => reprocessFile env folderId tableId rowId fieldName f w₁
        | some obj =>
          let c₁ := truthyS rec.md5_hash && truthyS obj.hashMd5 &&
            (rec.md5_hash != obj.hashMd5)
          let needsResync := c₁ || !(jsEqOpt rec.md5_hash f.md5Checksum)
          if !needsResync && jsEqOpt rec.md5_hash f.md5Checksum then
            if truthyS rec.r2_url then (rec.r2_url, w₁) else (none, w₁)
          else reprocessFile env folderId tableId rowId fieldName f w₁
      else reprocessFile env folderId tableId rowId fieldName f w
    | .failed =>
      if truthyS rec.r2_url && truthyS rec.r2_key then
        let k := rec.r2_key.getD ""
        let w₁ := headLog w k
        match w.bucket k with
        | some _ =>
          (rec.r2_url,
            upsertW w₁ (recoveredRecord env rec folderId tableId rowId fieldName f))
        | none => reprocessFile env folderId tableId rowId fieldName f w₁
      else reprocessFile env folderId tableId rowId fieldName f w
    | .pending => reprocessFile env folderId tableId rowId fieldName f w

/-- The sequential per-file loop, accumulating successful URLs in listing
order. -/
def runFiles (env : SyncEnv) (folderId : String) (tableId rowId : Nat)
    (fieldName : String) : List DriveFile → World → List String × World
  | [], w => ([], w)
  | f :: fs, w =>
    let r := processFile env folderId tableId rowId fieldName f w
    let rest := runFiles env folderId tableId rowId fieldName fs r.2
    ((match r.1 with | some u => u :: rest.1 | none => rest.1), rest.2)

/-- `processImagesFromFolder` (third revision): resolve the folder URL
(throwing `InvalidReference` on failure), require credentials, list and
filter to image mime types, return early on an empty folder, and otherwise
run the per-file loop. The row write-back only touches the excluded row
store. -/
def processImagesFromFolder (env : SyncEnv) (folderUrl : String)
    (tableId rowId : Nat) (fieldName : String) (w : World) :
    Except String (List String × World) :=
  match extractDriveFolderId folderUrl with
  | none => .error ("Invalid Google Drive folder URL: " ++ folderUrl)
  | some folderId =>
    if !env.hasCredentials then .error "Google Drive credentials not configured"
    else
      let imageFiles :=
        (env.listFiles folderId).filter fun f => strStartsWith f.mimeType "image/"
      if imageFiles.isEmpty then .ok ([], w)
      else .ok (runFiles env folderId tableId rowId fieldName imageFiles w)

/-- The non-NULL `r2_key`s of the owner's records (the SQL SELECT of
`deleteRowImages`). -/
def ownerKeys (w : World) (tableId rowId : Nat) : List String :=
  (w.ledger.rows.filter fun p =>
    p.2.table_id == tableId && p.2.row_id == rowId && p.2.r2_key.isSome).map
    fun p => p.2.r2_key.getD ""

/-- One iteration of the delete loop of `deleteRowImages`: the delete call
is issued (logged) either way; a throwing delete (`deleteFails k`) is
swallowed and skips the counter increment. -/
def delStep (deleteFails : String → Bool) (acc : Nat × World) (k : String) :
    Nat × World :=
  if deleteFails k then
    (acc.1, { acc.2 with log := { acc.2.log with deletes := acc.2.log.deletes ++ [k] } })
  else (acc.1 + 1, delOp acc.2 k)

/-- `deleteRowImages`: select the non-NULL `r2_key`s of the owner, attempt
an R2 delete for each, then delete every ledger row of the owner; return
the number of deletes that completed without throwing. -/
def deleteRowImages (deleteFails : String → Bool) (tableId rowId : Nat)
    (w : World) : Nat × World :=
  let res := (ownerKeys w tableId rowId).foldl (delStep deleteFails) (0, w)
  (res.1,
    { res.2 with
      ledger :=
        { res.2.ledger with
          rows := res.2.ledger.rows.filter fun p =>
            !(p.2.table_id == tableId && p.2.row_id == rowId) } })

/-- Byte length the environment reports for a file (0 when the download
fails; only consulted where a success hypothesis pins it down). -/
def sOf (env : SyncEnv) (f : DriveFile) : Nat :=
  (env.download f.id).getD 0

/-- Whether a full reprocess of `f` would reach the upload: the download
succeeds and the byte length is within the size cap. -/
def isSuccess (env : SyncEnv) (f : DriveFile) : Bool :=
  match env.download f.id with
  | some s => decide (s ≤ env.maxImageSize)
  | none => false

/-- Outcome of the single optimization attempt for `f` (size, whether a new
buffer was returned), as `optimizeImage` computes it. -/
def optOutcome (env : SyncEnv) (f : DriveFile) : Nat × Bool :=
  match env.resizeFetch f.id with
  | none => (sOf env f, false)
  | some n => if 100 * n < 95 * sOf env f then (n, true) else (sOf env f, false)

/-- Whether the caller accepts the optimized buffer (the five percent rule
re-checked by the loop body). -/
def expSmaller (env : SyncEnv) (f : DriveFile) : Bool :=
  (optOutcome env f).2 && decide (100 * (optOutcome env f).1 < 95 * sOf env f)

/-- Whether the result is re-labeled `image/webp` (eligible input format
and at least twenty percent size reduction). -/
def expWebp (env : SyncEnv) (f : DriveFile) : Bool :=
  expSmaller env f && shouldConvertToWebP f.mimeType &&
    decide (100 * (optOutcome env f).1 < 80 * sOf env f)

/-- Stored (post-optimization) byte length of a successful reprocess. -/
def expFinalSize (env : SyncEnv) (f : DriveFile) : Nat :=
  if expSmaller env f then (optOutcome env f).1 else sOf env f

/-- Output mime type of a successful reprocess. -/
def expMime (env : SyncEnv) (f : DriveFile) : String :=
  if expWebp env f then "image/webp" else f.mimeType

/-- Final sanitized object name, extension rewritten when the output is
WebP and the name does not already end in `.webp`. -/
def expName (env : SyncEnv) (f : DriveFile) : String :=
  let n₀ := sanitizeFilename f.name
  if expMime env f == "image/webp" && !endsWithWebpLower n₀ then
    replaceLastExt n₀
  else n₀

/-- Deterministic R2 key `tableId/rowId/<finalName>` of a reprocess. -/
def expKey (env : SyncEnv) (tableId rowId : Nat) (f : DriveFile) : String :=
  toString tableId ++ "/" ++ toString rowId ++ "/" ++ expName env f

/-- Public URL `r2PublicDomain/<key>` of a reprocess. -/
def expUrl (env : SyncEnv) (tableId rowId : Nat) (f : DriveFile) : String :=
  env.r2PublicDomain ++ "/" ++ expKey env tableId rowId f

/-- The processed record a successful reprocess of `f` writes. -/
def expRecord (env : SyncEnv) (folderId : String) (tableId rowId : Nat)
    (fieldName : String) (f : DriveFile) : ImageSyncRecord :=
  processedRec env folderId tableId rowId fieldName f (sOf env f)
    (expFinalSize env f) (expUrl env tableId rowId f) (expKey env tableId rowId f)

/-- The failed record an unsuccessful reprocess of `f` writes (download
throw or size cap). -/
def expFailed (env : SyncEnv) (folderId : String) (tableId rowId : Nat)
    (fieldName : String) (f : DriveFile) : ImageSyncRecord :=
  match env.download f.id with
  | none => baseFailed env folderId tableId rowId fieldName f none dlErrorMsg
  | some s =>
    baseFailed env folderId tableId rowId fieldName f (some s)
      (sizeErrorMsg s env.maxImageSize)

/-- Number of ledger rows whose `google_drive_file_id` matches. -/
def countMatching (L : Ledger) (fid : String) : Nat :=
  L.rows.countP fun p => p.2.google_drive_file_id == fid

/-! Ledger lemmas: behaviour of the max-id lookup under the INSERT and
UPDATE branches of the upsert. -/

theorem applyUpdate_fid (old new : ImageSyncRecord) :
    (applyUpdate old new).google_drive_file_id = old.google_drive_file_id := rfl

theorem updRow_fid (rec : ImageSyncRecord) (p : Nat × ImageSyncRecord) :
    (updRow rec p).2.google_drive_file_id = p.2.google_drive_file_id := by
  unfold updRow
  split
  · exact applyUpdate_fid p.2 rec
  · rfl

theorem lookupMax_cons (p : Nat × ImageSyncRecord)
    (ps : List (Nat × ImageSyncRecord)) (fid : String) :
    lookupMax (p :: ps) fid =
      if p.2.google_drive_file_id == fid then
        match lookupMax ps fid with
        | none => some p
        | some q => if q.1 ≤ p.1 then some p else some q
      else lookupMax ps fid := rfl

theorem lookupMax_none_mem {rows : List (Nat × ImageSyncRecord)} {fid : String}
    (h : lookupMax rows fid = none) :
    ∀ p ∈ rows, (p.2.google_drive_file_id == fid) = false := by
  induction rows with
  | nil => intro p hp; exact absurd hp (List.not_mem_nil p)
  | cons q qs ih =>
    rw [lookupMax_cons] at h
    by_cases hq : (q.2.google_drive_file_id == fid) = true
    · exfalso
      rw [if_pos hq] at h
      cases hrest : lookupMax qs fid with
      | none => rw [hrest] at h; exact Option.noConfusion h
      | some r =>
        rw [hrest] at h
        by_cases hle : r.1 ≤ q.1 <;> simp [hle] at h
    · rw [if_neg hq] at h
      intro p hp
      rcases List.mem_cons.mp hp with rfl | hp'
      · exact Bool.eq_false_iff.mpr hq
      · exact ih h p hp'

theorem lookupMax_append_match {rows : List (Nat × ImageSyncRecord)} {fid : String}
    (h : lookupMax rows fid = none) (n : Nat) (r : ImageSyncRecord)
    (hm : (r.google_drive_file_id == fid) = true) :
    lookupMax (rows ++ [(n, r)]) fid = some (n, r) := by
  induction rows with
  | nil => simp [lookupMax, lookupMax_cons, hm]
  | cons q qs ih =>
    have hq := lookupMax_none_mem h q (List.mem_cons_self q qs)
    rw [lookupMax_cons] at h
    rw [if_neg (by simp [hq])] at h
    rw [List.cons_append, lookupMax_cons, if_neg (by simp [hq])]
    exact ih h

theorem lookupMax_append_ne (rows : List (Nat × ImageSyncRecord)) {fid : String}
    (n : Nat) (r : ImageSyncRecord)
    (hm : (r.google_drive_file_id == fid) = false) :
    lookupMax (rows ++ [(n, r)]) fid = lookupMax rows fid := by
  induction rows with
  | nil => simp [lookupMax, lookupMax_cons, hm]
  | cons q qs ih =>
    rw [List.cons_append, lookupMax_cons, ih, ← lookupMax_cons]

theorem lookupMax_map_upd (rows : List (Nat × ImageSyncRecord))
    (rec : ImageSyncRecord) :
    lookupMax (rows.map (updRow rec)) rec.google_drive_file_id =
      (lookupMax rows rec.google_drive_file_id).map
        (fun p => (p.1, applyUpdate p.2 rec)) := by
  induction rows with
  | nil => rfl
  | cons q qs ih =>
    rw [List.map_cons, lookupMax_cons, lookupMax_cons, ih]
    by_cases hq : (q.2.google_drive_file_id == rec.google_drive_file_id) = true
    · have hupd : updRow rec q = (q.1, applyUpdate q.2 rec) := by
        unfold updRow; rw [if_pos hq]
      rw [if_pos (by rw [updRow_fid]; exact hq), if_pos hq]
      cases hrest : lookupMax qs rec.google_drive_file_id with
      | none => simp [hupd]
      | some r => by_cases hle : r.1 ≤ q.1 <;> simp [hupd, hle]
    · have hupd : updRow rec q = q := by
        unfold updRow; rw [if_neg hq]
      rw [if_neg (by rw [updRow_fid]; exact hq), if_neg hq]

theorem lookupMax_map_upd_ne (rows : List (Nat × ImageSyncRecord))
    (rec : ImageSyncRecord) (fid : String)
    (hne : fid ≠ rec.google_drive_file_id) :
    lookupMax (rows.map (updRow rec)) fid = lookupMax rows fid := by
  induction rows with
  | nil => rfl
  | cons q qs ih =>
    rw [List.map_cons, lookupMax_cons, lookupMax_cons, ih]
    by_cases hq : (q.2.google_drive_file_id == fid) = true
    · have hqeq : q.2.google_drive_file_id = fid := by simpa using hq
      have hqne : (q.2.google_drive_file_id == rec.google_drive_file_id) = false := by
        simp [hqeq]
        exact fun hcontra => hne hcontra
      have hupd : updRow rec q = q := by
        unfold updRow; rw [if_neg (by simp [hqne])]
      rw [hupd]
    · rw [updRow_fid, if_neg hq, if_neg hq]

theorem getImageSyncRecord_upsert_insert (L : Ledger) (rec : ImageSyncRecord)
    (h : getImageSyncRecord L rec.google_drive_file_id = none) :
    getImageSyncRecord (upsertImageSyncRecord L rec) rec.google_drive_file_id =
      some rec := by
  have hlk : lookupMax L.rows rec.google_drive_file_id = none := by
    unfold getImageSyncRecord at h
    exact Option.map_eq_none'.mp h
  unfold upsertImageSyncRecord
  rw [h]
  unfold getImageSyncRecord
  rw [lookupMax_append_match hlk L.nextId rec (by simp)]
  rfl

theorem getImageSyncRecord_upsert_update (L : Ledger) (rec : ImageSyncRecord)
    (r₀ : ImageSyncRecord)
    (h : getImageSyncRecord L rec.google_drive_file_id = some r₀) :
    getImageSyncRecord (upsertImageSyncRecord L rec) rec.google_drive_file_id =
      some (applyUpdate r₀ rec) := by
  unfold upsertImageSyncRecord
  rw [h]
  unfold getImageSyncRecord at h ⊢
  rw [lookupMax_map_upd]
  cases hlk : lookupMax L.rows rec.google_drive_file_id with
  | none => rw [hlk] at h; exact Option.noConfusion h
  | some q =>
    rw [hlk] at h
    have : q.2 = r₀ := Option.some.inj h
    simp [this]

theorem getImageSyncRecord_upsert_ne (L : Ledger) (rec : ImageSyncRecord)
    (fid : String) (hne : fid ≠ rec.google_drive_file_id) :
    getImageSyncRecord (upsertImageSyncRecord L rec) fid =
      getImageSyncRecord L fid := by
  unfold upsertImageSyncRecord
  cases hget : getImageSyncRecord L rec.google_drive_file_id with
  | some r₀ =>
    unfold getImageSyncRecord
    rw [lookupMax_map_upd_ne L.rows rec fid hne]
  | none =>
    unfold getImageSyncRecord
    rw [lookupMax_append_ne L.rows L.nextId rec (by simp; exact fun hcontra => hne hcontra.symm)]

theorem countMatching_eq_zero {L : Ledger} {fid : String}
    (h : getImageSyncRecord L fid = none) : countMatching L fid = 0 := by
  have hlk : lookupMax L.rows fid = none := Option.map_eq_none'.mp h
  unfold countMatching
  rw [List.countP_eq_zero]
  intro p hp
  simp [lookupMax_none_mem hlk p hp]

theorem countMatching_upsert_insert (L : Ledger) (rec : ImageSyncRecord)
    (h : getImageSyncRecord L rec.google_drive_file_id = none) :
    countMatching (upsertImageSyncRecord L rec) rec.google_drive_file_id = 1 := by
  unfold upsertImageSyncRecord
  rw [h]
  unfold countMatching
  rw [List.countP_append]
  have h0 : countMatching L rec.google_drive_file_id = 0 := countMatching_eq_zero h
  unfold countMatching at h0
  rw [h0]
  simp

theorem countMatching_upsert_update (L : Ledger) (rec : ImageSyncRecord)
    (r₀ : ImageSyncRecord)
    (h : getImageSyncRecord L rec.google_drive_file_id = some r₀) (fid : String) :
    countMatching (upsertImageSyncRecord L rec) fid = countMatching L fid := by
  unfold upsertImageSyncRecord
  rw [h]
  unfold countMatching
  rw [List.countP_map]
  refine List.countP_congr ?_
  intro p _
  simp [Function.comp, updRow_fid]

/-! Per-file equation lemmas: the loop body under each drift-detector
outcome. -/

theorem reprocessFile_dlfail (env : SyncEnv) (folderId : String)
    (tableId rowId : Nat) (fieldName : String) (f : DriveFile) (w : World)
    (hdl : env.download f.id = none) :
    reprocessFile env folderId tableId rowId fieldName f w =
      (none,
        { w with
          ledger := upsertImageSyncRecord w.ledger
            (expFailed env folderId tableId rowId fieldName f)
          log := { w.log with downloads := w.log.downloads ++ [f.id] } }) := by
  unfold reprocessFile
  rw [hdl]
  simp [expFailed, hdl, upsertW, downloadLog]

theorem reprocessFile_oversize (env : SyncEnv) (folderId : String)
    (tableId rowId : Nat) (fieldName : String) (f : DriveFile) (w : World)
    (s : Nat) (hdl : env.download f.id = some s) (hgt : env.maxImageSize < s) :
    reprocessFile env folderId tableId rowId fieldName f w =
      (none,
        { w with
          ledger := upsertImageSyncRecord w.ledger
            (expFailed env folderId tableId rowId fieldName f)
          log := { w.log with downloads := w.log.downloads ++ [f.id] } }) := by
  unfold reprocessFile
  rw [hdl]
  simp only [expFailed, hdl]
  rw [if_pos hgt]
  simp [upsertW, downloadLog]

theorem reprocessFile_success (env : SyncEnv) (folderId : String)
    (tableId rowId : Nat) (fieldName : String) (f : DriveFile) (w : World)
    (s : Nat) (hdl : env.download f.id = some s) (hsz : s ≤ env.maxImageSize) :
    (reprocessFile env folderId tableId rowId fieldName f w).1 =
      some (expUrl env tableId rowId f) ∧
    (reprocessFile env folderId tableId rowId fieldName f w).2.ledger =
      upsertImageSyncRecord w.ledger
        (expRecord env folderId tableId rowId fieldName f) ∧
    (∀ k, (reprocessFile env folderId tableId rowId fieldName f w).2.bucket k =
      if k = expKey env tableId rowId f then some ⟨orNullS f.md5Checksum⟩
      else if k = tempKeyFor env tableId rowId f then none
      else w.bucket k) ∧
    (reprocessFile env folderId tableId rowId fieldName f w).2.log =
      { puts := w.log.puts ++ [tempKeyFor env tableId rowId f, expKey env tableId rowId f]
        deletes := w.log.deletes ++ [tempKeyFor env tableId rowId f]
        heads := w.log.heads
        downloads := w.log.downloads ++ [f.id]
        fetches := w.log.fetches ++ [f.id] } := by
  have hsOf : sOf env f = s := by simp [sOf, hdl]
  unfold reprocessFile
  rw [hdl]
  dsimp only
  rw [if_neg (Nat.not_lt.mpr hsz)]
  unfold optimizeImage
  cases hrf : env.resizeFetch f.id with
  | none =>
    have hoo : optOutcome env f = (s, false) := by simp [optOutcome, hrf, hsOf]
    have hsm : expSmaller env f = false := by simp [expSmaller, hoo]
    have hwp : expWebp env f = false := by simp [expWebp, hsm]
    have hfs : expFinalSize env f = s := by simp [expFinalSize, hsm, hsOf]
    have hmm : expMime env f = f.mimeType := by simp [expMime, hwp]
    have hnm : expName env f =
        (if f.mimeType == "image/webp" && !endsWithWebpLower (sanitizeFilename f.name) then
          replaceLastExt (sanitizeFilename f.name)
        else sanitizeFilename f.name) := by
      simp [expName, hmm]
    refine ⟨?_, ?_, ?_, ?_⟩
    · simp [expUrl, expKey, hnm, putOp, delOp, fetchLog, downloadLog, upsertW]
    · simp [expRecord, expKey, expUrl, hnm, hfs, hsOf, putOp, delOp, fetchLog,
        downloadLog, upsertW, processedRec]
    · intro k
      simp only [expKey, hnm, putOp, delOp, fetchLog, downloadLog, upsertW]
      by_cases h1 :
          k = toString tableId ++ "/" ++ toString rowId ++ "/" ++
            (if f.mimeType == "image/webp" && !endsWithWebpLower (sanitizeFilename f.name) then
              replaceLastExt (sanitizeFilename f.name)
            else sanitizeFilename f.name) <;>
        by_cases h2 : k = tempKeyFor env tableId rowId f <;>
        simp [h1, h2]
    · simp [expKey, hnm, putOp, delOp, fetchLog, downloadLog, upsertW]
  | some n =>
    by_cases hlt : 100 * n < 95 * s
    · have hoo : optOutcome env f = (n, true) := by
        simp [optOutcome, hrf, hsOf, hlt]
      have hsm : expSmaller env f = true := by
        simp [expSmaller, hoo, hsOf, hlt]
      have hfs : expFinalSize env f = n := by simp [expFinalSize, hsm, hoo]
      have hwp : expWebp env f =
          (shouldConvertToWebP f.mimeType && decide (100 * n < 80 * s)) := by
        simp [expWebp, hsm, hoo, hsOf]
      have hnm : expName env f =
          (if expMime env f == "image/webp" && !endsWithWebpLower (sanitizeFilename f.name) then
            replaceLastExt (sanitizeFilename f.name)
          else sanitizeFilename f.name) := by
        simp [expName]
      refine ⟨?_, ?_, ?_, ?_⟩
      · simp [expUrl, expKey, hnm, expMime, hwp, hlt, putOp, delOp, fetchLog,
          downloadLog, upsertW]
      · simp [expRecord, expKey, expUrl, hnm, expMime, hwp, hfs, hsOf, hlt, putOp,
          delOp, fetchLog, downloadLog, upsertW, processedRec]
      · intro k
        simp only [expKey, hnm, expMime, hwp, hlt, putOp, delOp, fetchLog,
          downloadLog, upsertW, if_pos, decide_eq_true_eq]
        by_cases h1 : k = expKey env tableId rowId f <;>
          by_cases h2 : k = tempKeyFor env tableId rowId f <;>
          simp_all [expKey, expName, expMime, hwp, putOp, delOp, fetchLog,
            downloadLog, upsertW]
      · simp [expKey, hnm, expMime, hwp, hlt, putOp, delOp, fetchLog, downloadLog,
          upsertW]
    · have hoo : optOutcome env f = (s, false) := by
        simp [optOutcome, hrf, hsOf, hlt]
      have hsm : expSmaller env f = false := by simp [expSmaller, hoo]
      have hwp : expWebp env f = false := by simp [expWebp, hsm]
      have hfs : expFinalSize env f = s := by simp [expFinalSize, hsm, hsOf]
      have hmm : expMime env f = f.mimeType := by simp [expMime, hwp]
      have hnm : expName env f =
          (if f.mimeType == "image/webp" && !endsWithWebpLower (sanitizeFilename f.name) then
            replaceLastExt (sanitizeFilename f.name)
          else sanitizeFilename f.name) := by
        simp [expName, hmm]
      refine ⟨?_, ?_, ?_, ?_⟩
      · simp [expUrl, expKey, hnm, hlt, putOp, delOp, fetchLog, downloadLog, upsertW]
      · simp [expRecord, expKey, expUrl, hnm, hfs, hsOf, hlt, putOp, delOp,
          fetchLog, downloadLog, upsertW, processedRec]
      · intro k
        simp only [expKey, hnm, hlt, putOp, delOp, fetchLog, downloadLog, upsertW]
        by_cases h1 :
            k = toString tableId ++ "/" ++ toString rowId ++ "/" ++
              (if f.mimeType == "image/webp" && !endsWithWebpLower (sanitizeFilename f.name) then
                replaceLastExt (sanitizeFilename f.name)
              else sanitizeFilename f.name) <;>
          by_cases h2 : k = tempKeyFor env tableId rowId f <;>
          simp [h1, h2, hlt]
      · simp [expKey, hnm, hlt, putOp, delOp, fetchLog, downloadLog, upsertW]

theorem processFile_no_record (env : SyncEnv) (folderId : String)
    (tableId rowId : Nat) (fieldName : String) (f : DriveFile) (w : World)
    (hget : getImageSyncRecord w.ledger f.id = none) :
    processFile env folderId tableId rowId fieldName f w =
      reprocessFile env folderId tableId rowId fieldName f w := by
  unfold processFile
  rw [hget]

theorem processFile_pending (env : SyncEnv) (folderId : String)
    (tableId rowId : Nat) (fieldName : String) (f : DriveFile) (w : World)
    (rec : ImageSyncRecord)
    (hget : getImageSyncRecord w.ledger f.id = some rec)
    (hst : rec.status = .pending) :
    processFile env folderId tableId rowId fieldName f w =
      reprocessFile env folderId tableId rowId fieldName f w := by
  unfold processFile
  rw [hget]
  dsimp only
  rw [hst]

theorem processFile_skip (env : SyncEnv) (folderId : String)
    (tableId rowId : Nat) (fieldName : String) (f : DriveFile) (w : World)
    (rec : ImageSyncRecord) (k : String) (obj : R2Obj)
    (hget : getImageSyncRecord w.ledger f.id = some rec)
    (hst : rec.status = .processed)
    (hk : rec.r2_key = some k) (hkne : k ≠ "")
    (hobj : w.bucket k = some obj)
    (hc1 : (truthyS rec.md5_hash && truthyS obj.hashMd5 &&
      (rec.md5_hash != obj.hashMd5)) = false)
    (heq : jsEqOpt rec.md5_hash f.md5Checksum = true) :
    processFile env folderId tableId rowId fieldName f w =
      ((if truthyS rec.r2_url then rec.r2_url else none), headLog w k) := by
  have hkt : truthyS rec.r2_key = true := by
    rw [hk]; simp [truthyS]; exact hkne
  have hgd : rec.r2_key.getD "" = k := by rw [hk]; rfl
  unfold processFile
  rw [hget]
  dsimp only
  rw [hst]
  dsimp only
  rw [if_pos hkt, hgd, hobj]
  dsimp only
  rw [hc1, heq]
  by_cases hu : truthyS rec.r2_url = true <;> simp [hu]

theorem processFile_drift_nokey (env : SyncEnv) (folderId : String)
    (tableId rowId : Nat) (fieldName : String) (f : DriveFile) (w : World)
    (rec : ImageSyncRecord)
    (hget : getImageSyncRecord w.ledger f.id = some rec)
    (hst : rec.status = .processed)
    (hkt : truthyS rec.r2_key = false) :
    processFile env folderId tableId rowId fieldName f w =
      reprocessFile env folderId tableId rowId fieldName f w := by
  unfold processFile
  rw [hget]
  dsimp only
  rw [hst]
  dsimp only
  rw [if_neg (by rw [hkt]; exact Bool.false_ne_true)]

theorem processFile_drift_missing (env : SyncEnv) (folderId : String)
    (tableId rowId : Nat) (fieldName : String) (f : DriveFile) (w : World)
    (rec : ImageSyncRecord) (k : String)
    (hget : getImageSyncRecord w.ledger f.id = some rec)
    (hst : rec.status = .processed)
    (hk : rec.r2_key = some k) (hkne : k ≠ "")
    (hmiss : w.bucket k = none) :
    processFile env folderId tableId rowId fieldName f w =
      reprocessFile env folderId tableId rowId fieldName f (headLog w k) := by
  have hkt : truthyS rec.r2_key = true := by
    rw [hk]; simp [truthyS]; exact hkne
  have hgd : rec.r2_key.getD "" = k := by rw [hk]; rfl
  unfold processFile
  rw [hget]
  dsimp only
  rw [hst]
  dsimp only
  rw [if_pos hkt, hgd, hmiss]

theorem processFile_drift_resync (env : SyncEnv) (folderId : String)
    (tableId rowId : Nat) (fieldName : String) (f : DriveFile) (w : World)
    (rec : ImageSyncRecord) (k : String) (obj : R2Obj)
    (hget : getImageSyncRecord w.ledger f.id = some rec)
    (hst : rec.status = .processed)
    (hk : rec.r2_key = some k) (hkne : k ≠ "")
    (hobj : w.bucket k = some obj)
    (hns : (truthyS rec.md5_hash && truthyS obj.hashMd5 &&
        (rec.md5_hash != obj.hashMd5) ||
      !(jsEqOpt rec.md5_hash f.md5Checksum)) = true) :
    processFile env folderId tableId rowId fieldName f w =
      reprocessFile env folderId tableId rowId fieldName f (headLog w k) := by
  have hkt : truthyS rec.r2_key = true := by
    rw [hk]; simp [truthyS]; exact hkne
  have hgd : rec.r2_key.getD "" = k := by rw [hk]; rfl
  unfold processFile
  rw [hget]
  dsimp only
  rw [hst]
  dsimp only
  rw [if_pos hkt, hgd, hobj]
  dsimp only
  rw [hns]
  simp

theorem processFile_failed_recover (env : SyncEnv) (folderId : String)
    (tableId rowId : Nat) (fieldName : String) (f : DriveFile) (w : World)
    (rec : ImageSyncRecord) (k : String) (obj : R2Obj)
    (hget : getImageSyncRecord w.ledger f.id = some rec)
    (hst : rec.status = .failed)
    (hu : truthyS rec.r2_url = true)
    (hk : rec.r2_key = some k) (hkne : k ≠ "")
    (hobj : w.bucket k = some obj) :
    processFile env folderId tableId rowId fieldName f w =
      (rec.r2_url,
        upsertW (headLog w k)
          (recoveredRecord env rec folderId tableId rowId fieldName f)) := by
  have hkt : truthyS rec.r2_key = true := by
    rw [hk]; simp [truthyS]; exact hkne
  have hgd : rec.r2_key.getD "" = k := by rw [hk]; rfl
  unfold processFile
  rw [hget]
  dsimp only
  rw [hst]
  dsimp only
  rw [if_pos (by rw [hu, hkt]; rfl), hgd, hobj]

theorem processFile_failed_noguard (env : SyncEnv) (folderId : String)
    (tableId rowId : Nat) (fieldName : String) (f : DriveFile) (w : World)
    (rec : ImageSyncRecord)
    (hget : getImageSyncRecord w.ledger f.id = some rec)
    (hst : rec.status = .failed)
    (hguard : (truthyS rec.r2_url && truthyS rec.r2_key) = false) :
    processFile env folderId tableId rowId fieldName f w =
      reprocessFile env folderId tableId rowId fieldName f w := by
  unfold processFile
  rw [hget]
  dsimp only
  rw [hst]
  dsimp only
  rw [if_neg (by rw [hguard]; exact Bool.false_ne_true)]

theorem processFile_failed_probe_missing (env : SyncEnv) (folderId : String)
    (tableId rowId : Nat) (fieldName : String) (f : DriveFile) (w : World)
    (rec : ImageSyncRecord) (k : String)
    (hget : getImageSyncRecord w.ledger f.id = some rec)
    (hst : rec.status = .failed)
    (hu : truthyS rec.r2_url = true)
    (hk : rec.r2_key = some k) (hkne : k ≠ "")
    (hmiss : w.bucket k = none) :
    processFile env folderId tableId rowId fieldName f w =
      reprocessFile env folderId tableId rowId fieldName f (headLog w k) := by
  have hkt : truthyS rec.r2_key = true := by
    rw [hk]; simp [truthyS]; exact hkne
  have hgd : rec.r2_key.getD "" = k := by rw [hk]; rfl
  unfold processFile
  rw [hget]
  dsimp only
  rw [hst]
  dsimp only
  rw [if_pos (by rw [hu, hkt]; rfl), hgd, hmiss]

/-! Pass-level lemmas. -/

theorem expRecord_fid (env : SyncEnv) (folderId : String) (tableId rowId : Nat)
    (fieldName : String) (f : DriveFile) :
    (expRecord env folderId tableId rowId fieldName f).google_drive_file_id = f.id := rfl

theorem expFailed_fid (env : SyncEnv) (folderId : String) (tableId rowId : Nat)
    (fieldName : String) (f : DriveFile) :
    (expFailed env folderId tableId rowId fieldName f).google_drive_file_id = f.id := by
  unfold expFailed
  cases env.download f.id <;> rfl

theorem slash_append_ne_empty (a b : String) : a ++ "/" ++ b ≠ "" := by
  intro h
  have hlen := congrArg String.length h
  rw [String.length_append, String.length_append] at hlen
  have h1 : ("/" : String).length = 1 := rfl
  have h0 : ("" : String).length = 0 := rfl
  omega

theorem expKey_ne_empty (env : SyncEnv) (tableId rowId : Nat) (f : DriveFile) :
    expKey env tableId rowId f ≠ "" := by
  unfold expKey
  exact slash_append_ne_empty (toString tableId ++ "/" ++ toString rowId) (expName env f)

theorem expUrl_ne_empty (env : SyncEnv) (tableId rowId : Nat) (f : DriveFile) :
    expUrl env tableId rowId f ≠ "" := by
  unfold expUrl
  exact slash_append_ne_empty env.r2PublicDomain (expKey env tableId rowId f)

theorem isSuccess_elim {env : SyncEnv} {f : DriveFile}
    (hs : isSuccess env f = true) :
    ∃ s, env.download f.id = some s ∧ s ≤ env.maxImageSize := by
  unfold isSuccess at hs
  cases hdl : env.download f.id with
  | none => rw [hdl] at hs; exact absurd hs (by simp)
  | some s => rw [hdl] at hs; exact ⟨s, rfl, by simpa using hs⟩

theorem isSuccess_false_elim {env : SyncEnv} {f : DriveFile}
    (hs : isSuccess env f = false) :
    env.download f.id = none ∨
      ∃ s, env.download f.id = some s ∧ env.maxImageSize < s := by
  unfold isSuccess at hs
  cases hdl : env.download f.id with
  | none => exact Or.inl rfl
  | some s =>
    rw [hdl] at hs
    refine Or.inr ⟨s, rfl, ?_⟩
    simpa [Nat.lt_iff_add_one_le, Nat.not_le] using hs

theorem runFiles_cons (env : SyncEnv) (folderId : String) (tableId rowId : Nat)
    (fieldName : String) (f : DriveFile) (fs : List DriveFile) (w : World) :
    runFiles env folderId tableId rowId fieldName (f :: fs) w =
      ((match (processFile env folderId tableId rowId fieldName f w).1 with
        | some u =>
          u :: (runFiles env folderId tableId rowId fieldName fs
            (processFile env folderId tableId rowId fieldName f w).2).1
        | none =>
          (runFiles env folderId tableId rowId fieldName fs
            (processFile env folderId tableId rowId fieldName f w).2).1),
       (runFiles env folderId tableId rowId fieldName fs
         (processFile env folderId tableId rowId fieldName f w).2).2) := rfl

/-- URLs a pass over `fs` is expected to return: one per file whose
download succeeds within the size cap, in listing order. -/
def FileUrls (env : SyncEnv) (tableId rowId : Nat) (fs : List DriveFile) : List String :=
  fs.filterMap fun f =>
    if isSuccess env f then some (expUrl env tableId rowId f) else none

/-- First pass over a folder whose files have no ledger records: returns
exactly the successful files' URLs, leaves each file either with its
processed record and uploaded object or with its failed record, and touches
no other ledger id and no other bucket key. -/
theorem runFiles_fresh (env : SyncEnv) (folderId : String) (tableId rowId : Nat)
    (fieldName : String) :
    ∀ (fs : List DriveFile) (w : World),
    (∀ f ∈ fs, getImageSyncRecord w.ledger f.id = none) →
    ((fs.map DriveFile.id).Nodup) →
    (∀ f ∈ fs, ∀ g ∈ fs, f.id ≠ g.id →
      expKey env tableId rowId f ≠ expKey env tableId rowId g) →
    (∀ f ∈ fs, ∀ g ∈ fs,
      tempKeyFor env tableId rowId f ≠ expKey env tableId rowId g) →
    (runFiles env folderId tableId rowId fieldName fs w).1 =
      FileUrls env tableId rowId fs ∧
    (∀ f ∈ fs,
      getImageSyncRecord
        (runFiles env folderId tableId rowId fieldName fs w).2.ledger f.id =
        some (if isSuccess env f then expRecord env folderId tableId rowId fieldName f
          else expFailed env folderId tableId rowId fieldName f)) ∧
    (∀ f ∈ fs, isSuccess env f = true →
      (runFiles env folderId tableId rowId fieldName fs w).2.bucket
        (expKey env tableId rowId f) = some ⟨orNullS f.md5Checksum⟩) ∧
    (∀ fid, fid ∉ fs.map DriveFile.id →
      getImageSyncRecord
        (runFiles env folderId tableId rowId fieldName fs w).2.ledger fid =
        getImageSyncRecord w.ledger fid) ∧
    (∀ k, (∀ f ∈ fs, k ≠ expKey env tableId rowId f ∧
        k ≠ tempKeyFor env tableId rowId f) →
      (runFiles env folderId tableId rowId fieldName fs w).2.bucket k =
        w.bucket k) := by
  intro fs
  induction fs with
  | nil =>
    intro w _ _ _ _
    refine ⟨rfl, ?_, ?_, ?_, ?_⟩ <;> simp [runFiles, FileUrls]
  | cons f fs ih =>
    intro w hfresh hids hkeys htemp
    have hfmem : f ∈ f :: fs := List.mem_cons_self f fs
    have hfid_notin : f.id ∉ fs.map DriveFile.id := (List.nodup_cons.mp hids).1
    have hids' : (fs.map DriveFile.id).Nodup := (List.nodup_cons.mp hids).2
    have hfresh_f := hfresh f hfmem
    have hne_tail : ∀ g ∈ fs, g.id ≠ f.id := by
      intro g hg hcontra
      exact hfid_notin (hcontra ▸ List.mem_map_of_mem DriveFile.id hg)
    have hstep :
        processFile env folderId tableId rowId fieldName f w =
          reprocessFile env folderId tableId rowId fieldName f w :=
      processFile_no_record env folderId tableId rowId fieldName f w hfresh_f
    have hkeys' : ∀ a ∈ fs, ∀ b ∈ fs, a.id ≠ b.id →
        expKey env tableId rowId a ≠ expKey env tableId rowId b := fun a ha b hb =>
      hkeys a (List.mem_cons_of_mem f ha) b (List.mem_cons_of_mem f hb)
    have htemp' : ∀ a ∈ fs, ∀ b ∈ fs,
        tempKeyFor env tableId rowId a ≠ expKey env tableId rowId b := fun a ha b hb =>
      htemp a (List.mem_cons_of_mem f ha) b (List.mem_cons_of_mem f hb)
    cases hs : isSuccess env f with
    | true =>
      obtain ⟨s, hdl, hsz⟩ := isSuccess_elim hs
      obtain ⟨hr1, hrl, hrb, _⟩ :=
        reprocessFile_success env folderId tableId rowId fieldName f w s hdl hsz
      have hfresh' : ∀ g ∈ fs,
          getImageSyncRecord
            (reprocessFile env folderId tableId rowId fieldName f w).2.ledger g.id =
            none := by
        intro g hg
        rw [hrl, getImageSyncRecord_upsert_ne _ _ _
          (by rw [expRecord_fid]; exact hne_tail g hg)]
        exact hfresh g (List.mem_cons_of_mem f hg)
      obtain ⟨ih1, ih2, ih3, ih4, ih5⟩ :=
        ih (reprocessFile env folderId tableId rowId fieldName f w).2
          hfresh' hids' hkeys' htemp'
      have hrun : runFiles env folderId tableId rowId fieldName (f :: fs) w =
          (expUrl env tableId rowId f ::
            (runFiles env folderId tableId rowId fieldName fs
              (reprocessFile env folderId tableId rowId fieldName f w).2).1,
           (runFiles env folderId tableId rowId fieldName fs
              (reprocessFile env folderId tableId rowId fieldName f w).2).2) := by
        rw [runFiles_cons, hstep, hr1]
      have hledger_f :
          getImageSyncRecord
            (reprocessFile env folderId tableId rowId fieldName f w).2.ledger f.id =
            some (expRecord env folderId tableId rowId fieldName f) := by
        rw [hrl]
        have h := getImageSyncRecord_upsert_insert w.ledger
          (expRecord env folderId tableId rowId fieldName f)
          (by rw [expRecord_fid]; exact hfresh_f)
        rw [expRecord_fid] at h
        exact h
      refine ⟨?_, ?_, ?_, ?_, ?_⟩
      · rw [hrun]
        simp [FileUrls, hs, ih1]
      · intro g hg
        rcases List.mem_cons.mp hg with rfl | hg'
        · rw [hrun, ih4 g.id hfid_notin, hledger_f, if_pos hs]
        · rw [hrun]
          exact ih2 g hg'
      · intro g hg hgs
        rcases List.mem_cons.mp hg with rfl | hg'
        · rw [hrun, ih5 (expKey env tableId rowId g) ?_]
          · rw [hrb]
            simp
          · intro a ha
            refine ⟨?_, ?_⟩
            · exact hkeys g hfmem a (List.mem_cons_of_mem _ ha)
                (fun hcontra => hne_tail a ha hcontra.symm)
            · exact (htemp a (List.mem_cons_of_mem _ ha) g hfmem).symm
        · rw [hrun]
          exact ih3 g hg' hgs
      · intro fid hfid
        have h1 : fid ≠ f.id := by
          intro hcontra
          exact hfid (by rw [hcontra]; exact List.mem_cons_self _ _)
        have h2 : fid ∉ fs.map DriveFile.id := fun hmem =>
          hfid (List.mem_cons_of_mem _ hmem)
        rw [hrun, ih4 fid h2, hrl,
          getImageSyncRecord_upsert_ne _ _ _ (by rw [expRecord_fid]; exact h1)]
      · intro k hk
        have hkf := hk f hfmem
        have hk' : ∀ a ∈ fs, k ≠ expKey env tableId rowId a ∧
            k ≠ tempKeyFor env tableId rowId a := fun a ha =>
          hk a (List.mem_cons_of_mem f ha)
        rw [hrun, ih5 k hk', hrb, if_neg hkf.1, if_neg hkf.2]
    | false =>
      have hre : reprocessFile env folderId tableId rowId fieldName f w =
          (none,
            { w with
              ledger := upsertImageSyncRecord w.ledger
                (expFailed env folderId tableId rowId fieldName f)
              log := { w.log with downloads := w.log.downloads ++ [f.id] } }) := by
        rcases isSuccess_false_elim hs with hdl | ⟨s, hdl, hgt⟩
        · exact reprocessFile_dlfail env folderId tableId rowId fieldName f w hdl
        · exact reprocessFile_oversize env folderId tableId rowId fieldName f w s hdl hgt
      have hfresh' : ∀ g ∈ fs,
          getImageSyncRecord
            (reprocessFile env folderId tableId rowId fieldName f w).2.ledger g.id =
            none := by
        intro g hg
        rw [hre]
        dsimp only
        rw [getImageSyncRecord_upsert_ne _ _ _
          (by rw [expFailed_fid]; exact hne_tail g hg)]
        exact hfresh g (List.mem_cons_of_mem f hg)
      obtain ⟨ih1, ih2, ih3, ih4, ih5⟩ :=
        ih (reprocessFile env folderId tableId rowId fieldName f w).2
          hfresh' hids' hkeys' htemp'
      have hrun : runFiles env folderId tableId rowId fieldName (f :: fs) w =
          ((runFiles env folderId tableId rowId fieldName fs
              (reprocessFile env folderId tableId rowId fieldName f w).2).1,
           (runFiles env folderId tableId rowId fieldName fs
              (reprocessFile env folderId tableId rowId fieldName f w).2).2) := by
        have hr1 : (reprocessFile env folderId tableId rowId fieldName f w).1 = none := by
          rw [hre]
        rw [runFiles_cons, hstep, hr1]
      have hledger_f :
          getImageSyncRecord
            (reprocessFile env folderId tableId rowId fieldName f w).2.ledger f.id =
            some (expFailed env folderId tableId rowId fieldName f) := by
        rw [hre]
        dsimp only
        have h := getImageSyncRecord_upsert_insert w.ledger
          (expFailed env folderId tableId rowId fieldName f)
          (by rw [expFailed_fid]; exact hfresh_f)
        rw [expFailed_fid] at h
        exact h
      have hbucket_w :
          (reprocessFile env folderId tableId rowId fieldName f w).2.bucket =
            w.bucket := by
        rw [hre]
      refine ⟨?_, ?_, ?_, ?_, ?_⟩
      · rw [hrun]
        simp [FileUrls, hs, ih1]
      · intro g hg
        rcases List.mem_cons.mp hg with rfl | hg'
        · rw [hrun, ih4 g.id hfid_notin, hledger_f, if_neg (by rw [hs]; exact Bool.false_ne_true)]
        · rw [hrun]
          exact ih2 g hg'
      · intro g hg hgs
        rcases List.mem_cons.mp hg with rfl | hg'
        · rw [hgs] at hs
          exact absurd hs (by simp)
        · rw [hrun]
          exact ih3 g hg' hgs
      · intro fid hfid
        have h1 : fid ≠ f.id := by
          intro hcontra
          exact hfid (by rw [hcontra]; exact List.mem_cons_self _ _)
        have h2 : fid ∉ fs.map DriveFile.id := fun hmem =>
          hfid (List.mem_cons_of_mem _ hmem)
        rw [hrun, ih4 fid h2, hre]
        dsimp only
        rw [getImageSyncRecord_upsert_ne _ _ _ (by rw [expFailed_fid]; exact h1)]
      · intro k hk
        have hk' : ∀ a ∈ fs, k ≠ expKey env tableId rowId a ∧
            k ≠ tempKeyFor env tableId rowId a := fun a ha =>
          hk a (List.mem_cons_of_mem f ha)
        rw [hrun, ih5 k hk', hbucket_w]

theorem expFailed_status (env : SyncEnv) (folderId : String) (tableId rowId : Nat)
    (fieldName : String) (f : DriveFile) :
    (expFailed env folderId tableId rowId fieldName f).status = .failed := by
  unfold expFailed
  cases env.download f.id <;> rfl

theorem expFailed_url (env : SyncEnv) (folderId : String) (tableId rowId : Nat)
    (fieldName : String) (f : DriveFile) :
    (expFailed env folderId tableId rowId fieldName f).r2_url = none := by
  unfold expFailed
  cases env.download f.id <;> rfl

theorem truthyS_elim {o : Option String} (h : truthyS o = true) :
    ∃ s, o = some s ∧ s ≠ "" := by
  cases o with
  | none => exact absurd h (by simp [truthyS])
  | some s => exact ⟨s, rfl, by simpa [truthyS] using h⟩

theorem orNullS_of_truthy {o : Option String} (h : truthyS o = true) :
    orNullS o = o := by
  simp [orNullS, h]

/-- Second pass over a folder whose files are each in the state the first
pass left them in (processed record plus matching object, or failed record
with no stored URL): returns the same URL list and performs no put. -/
theorem runFiles_stable (env : SyncEnv) (folderId : String) (tableId rowId : Nat)
    (fieldName : String) :
    ∀ (fs : List DriveFile) (w : World),
    ((fs.map DriveFile.id).Nodup) →
    (∀ f ∈ fs, truthyS f.md5Checksum = true) →
    (∀ f ∈ fs,
      (isSuccess env f = true →
        getImageSyncRecord w.ledger f.id =
          some (expRecord env folderId tableId rowId fieldName f) ∧
        w.bucket (expKey env tableId rowId f) = some ⟨orNullS f.md5Checksum⟩) ∧
      (isSuccess env f = false →
        getImageSyncRecord w.ledger f.id =
          some (expFailed env folderId tableId rowId fieldName f))) →
    (runFiles env folderId tableId rowId fieldName fs w).1 =
      FileUrls env tableId rowId fs ∧
    (runFiles env folderId tableId rowId fieldName fs w).2.log.puts =
      w.log.puts := by
  intro fs
  induction fs with
  | nil => intro w _ _ _; exact ⟨rfl, rfl⟩
  | cons f fs ih =>
    intro w hids hhash hstable
    have hfmem : f ∈ f :: fs := List.mem_cons_self f fs
    have hfid_notin : f.id ∉ fs.map DriveFile.id := (List.nodup_cons.mp hids).1
    have hids' : (fs.map DriveFile.id).Nodup := (List.nodup_cons.mp hids).2
    have hne_tail : ∀ g ∈ fs, g.id ≠ f.id := by
      intro g hg hcontra
      exact hfid_notin (hcontra ▸ List.mem_map_of_mem DriveFile.id hg)
    have hhash' : ∀ g ∈ fs, truthyS g.md5Checksum = true := fun g hg =>
      hhash g (List.mem_cons_of_mem f hg)
    cases hs : isSuccess env f with
    | true =>
      obtain ⟨hrec, hbuck⟩ := (hstable f hfmem).1 hs
      obtain ⟨h, hmd5, hne⟩ := truthyS_elim (hhash f hfmem)
      have horn : orNullS f.md5Checksum = some h := by
        rw [orNullS_of_truthy (hhash f hfmem), hmd5]
      have hc1 : (truthyS (expRecord env folderId tableId rowId fieldName f).md5_hash &&
          truthyS (R2Obj.mk (orNullS f.md5Checksum)).hashMd5 &&
          ((expRecord env folderId tableId rowId fieldName f).md5_hash !=
            (R2Obj.mk (orNullS f.md5Checksum)).hashMd5)) = false := by
        simp [expRecord, processedRec]
      have heq : jsEqOpt (expRecord env folderId tableId rowId fieldName f).md5_hash
          f.md5Checksum = true := by
        show jsEqOpt (orNullS f.md5Checksum) f.md5Checksum = true
        rw [horn, hmd5]
        simp [jsEqOpt]
      have hskip := processFile_skip env folderId tableId rowId fieldName f w
        (expRecord env folderId tableId rowId fieldName f)
        (expKey env tableId rowId f) ⟨orNullS f.md5Checksum⟩
        hrec rfl rfl (expKey_ne_empty env tableId rowId f) hbuck hc1 heq
      have hurl_truthy :
          truthyS (expRecord env folderId tableId rowId fieldName f).r2_url = true := by
        show truthyS (some (expUrl env tableId rowId f)) = true
        simp [truthyS]
        exact expUrl_ne_empty env tableId rowId f
      have hpf1 : (processFile env folderId tableId rowId fieldName f w).1 =
          some (expUrl env tableId rowId f) := by
        rw [hskip]
        dsimp only
        rw [if_pos hurl_truthy]
        rfl
      have hpf2 : (processFile env folderId tableId rowId fieldName f w).2 =
          headLog w (expKey env tableId rowId f) := by
        rw [hskip]
      have hstable' : ∀ g ∈ fs,
          (isSuccess env g = true →
            getImageSyncRecord (headLog w (expKey env tableId rowId f)).ledger g.id =
              some (expRecord env folderId tableId rowId fieldName g) ∧
            (headLog w (expKey env tableId rowId f)).bucket (expKey env tableId rowId g) =
              some ⟨orNullS g.md5Checksum⟩) ∧
          (isSuccess env g = false →
            getImageSyncRecord (headLog w (expKey env tableId rowId f)).ledger g.id =
              some (expFailed env folderId tableId rowId fieldName g)) := by
        intro g hg
        exact hstable g (List.mem_cons_of_mem f hg)
      obtain ⟨ih1, ih2⟩ := ih (headLog w (expKey env tableId rowId f)) hids' hhash' hstable'
      constructor
      · rw [runFiles_cons, hpf1, hpf2]
        simp [FileUrls, hs, ih1]
      · rw [runFiles_cons, hpf2]
        rw [ih2]
        rfl
    | false =>
      have hrecF := (hstable f hfmem).2 hs
      have hguard : (truthyS (expFailed env folderId tableId rowId fieldName f).r2_url &&
          truthyS (expFailed env folderId tableId rowId fieldName f).r2_key) = false := by
        rw [expFailed_url]
        simp [truthyS]
      have hstep := processFile_failed_noguard env folderId tableId rowId fieldName f w
        (expFailed env folderId tableId rowId fieldName f) hrecF
        (expFailed_status env folderId tableId rowId fieldName f) hguard
      have hre : reprocessFile env folderId tableId rowId fieldName f w =
          (none,
            { w with
              ledger := upsertImageSyncRecord w.ledger
                (expFailed env folderId tableId rowId fieldName f)
              log := { w.log with downloads := w.log.downloads ++ [f.id] } }) := by
        rcases isSuccess_false_elim hs with hdl | ⟨s, hdl, hgt⟩
        · exact reprocessFile_dlfail env folderId tableId rowId fieldName f w hdl
        · exact reprocessFile_oversize env folderId tableId rowId fieldName f w s hdl hgt
      have hpf1 : (processFile env folderId tableId rowId fieldName f w).1 = none := by
        rw [hstep, hre]
      have hpf2 : (processFile env folderId tableId rowId fieldName f w).2 =
          { w with
            ledger := upsertImageSyncRecord w.ledger
              (expFailed env folderId tableId rowId fieldName f)
            log := { w.log with downloads := w.log.downloads ++ [f.id] } } := by
        rw [hstep, hre]
      have hstable' : ∀ g ∈ fs,
          (isSuccess env g = true →
            getImageSyncRecord (upsertImageSyncRecord w.ledger
              (expFailed env folderId tableId rowId fieldName f)) g.id =
              some (expRecord env folderId tableId rowId fieldName g) ∧
            w.bucket (expKey env tableId rowId g) = some ⟨orNullS g.md5Checksum⟩) ∧
          (isSuccess env g = false →
            getImageSyncRecord (upsertImageSyncRecord w.ledger
              (expFailed env folderId tableId rowId fieldName f)) g.id =
              some (expFailed env folderId tableId rowId fieldName g)) := by
        intro g hg
        have hgne : g.id ≠ (expFailed env folderId tableId rowId fieldName f).google_drive_file_id := by
          rw [expFailed_fid]
          exact hne_tail g hg
        constructor
        · intro hgs
          refine ⟨?_, ((hstable g (List.mem_cons_of_mem f hg)).1 hgs).2⟩
          rw [getImageSyncRecord_upsert_ne _ _ _ hgne]
          exact ((hstable g (List.mem_cons_of_mem f hg)).1 hgs).1
        · intro hgs
          rw [getImageSyncRecord_upsert_ne _ _ _ hgne]
          exact (hstable g (List.mem_cons_of_mem f hg)).2 hgs
      obtain ⟨ih1, ih2⟩ := ih
        { w with
          ledger := upsertImageSyncRecord w.ledger
            (expFailed env folderId tableId rowId fieldName f)
          log := { w.log with downloads := w.log.downloads ++ [f.id] } }
        hids' hhash' hstable'
      constructor
      · rw [runFiles_cons, hpf1, hpf2]
        simp [FileUrls, hs, ih1]
      · rw [runFiles_cons, hpf2]
        rw [ih2]

theorem processImagesFromFolder_eq (env : SyncEnv) (folderUrl : String)
    (tableId rowId : Nat) (fieldName : String) (w : World) (fid : String)
    (files : List DriveFile)
    (hfid : extractDriveFolderId folderUrl = some fid)
    (hcred : env.hasCredentials = true)
    (hfiles : (env.listFiles fid).filter
      (fun f => strStartsWith f.mimeType "image/") = files) :
    processImagesFromFolder env folderUrl tableId rowId fieldName w =
      (if files.isEmpty then .ok ([], w)
       else .ok (runFiles env fid tableId rowId fieldName files w)) := by
  unfold processImagesFromFolder
  rw [hfid]
  dsimp only
  rw [hcred, hfiles]
  simp

/-- Claim C1 (amended): starting from a ledger with no records for the
listed image files, when every file carries a non-empty content hash, file
ids are distinct, and the derived target keys do not collide with each
other or with the temp keys, a second `sync` call over an unchanged
environment performs zero put operations and returns the reference list of
the first call. -/
theorem c1_second_pass_no_writes (env : SyncEnv) (folderUrl : String)
    (tableId rowId : Nat) (fieldName : String) (fid : String)
    (files : List DriveFile) (w₀ : World)
    (hfid : extractDriveFolderId folderUrl = some fid)
    (hcred : env.hasCredentials = true)
    (hfiles : (env.listFiles fid).filter
      (fun f => strStartsWith f.mimeType "image/") = files)
    (hfresh : ∀ f ∈ files, getImageSyncRecord w₀.ledger f.id = none)
    (hids : (files.map DriveFile.id).Nodup)
    (hhash : ∀ f ∈ files, truthyS f.md5Checksum = true)
    (hkeys : ∀ f ∈ files, ∀ g ∈ files, f.id ≠ g.id →
      expKey env tableId rowId f ≠ expKey env tableId rowId g)
    (htemp : ∀ f ∈ files, ∀ g ∈ files,
      tempKeyFor env tableId rowId f ≠ expKey env tableId rowId g) :
    ∃ urls w₁ w₂,
      processImagesFromFolder env folderUrl tableId rowId fieldName w₀ =
        .ok (urls, w₁) ∧
      processImagesFromFolder env folderUrl tableId rowId fieldName
        { w₁ with log := OpLog.empty } = .ok (urls, w₂) ∧
      w₂.log.puts = [] := by
  by_cases hemp : files.isEmpty
  · refine ⟨[], w₀, { w₀ with log := OpLog.empty }, ?_, ?_, rfl⟩
    · rw [processImagesFromFolder_eq env folderUrl tableId rowId fieldName w₀ fid
        files hfid hcred hfiles, if_pos hemp]
    · rw [processImagesFromFolder_eq env folderUrl tableId rowId fieldName
        { w₀ with log := OpLog.empty } fid files hfid hcred hfiles, if_pos hemp]
  · obtain ⟨p1, p2, p3, _, _⟩ :=
      runFiles_fresh env fid tableId rowId fieldName files w₀ hfresh hids hkeys htemp
    have hstable : ∀ f ∈ files,
        (isSuccess env f = true →
          getImageSyncRecord
            { (runFiles env fid tableId rowId fieldName files w₀).2 with
              log := OpLog.empty }.ledger f.id =
            some (expRecord env fid tableId rowId fieldName f) ∧
          { (runFiles env fid tableId rowId fieldName files w₀).2 with
            log := OpLog.empty }.bucket (expKey env tableId rowId f) =
            some ⟨orNullS f.md5Checksum⟩) ∧
        (isSuccess env f = false →
          getImageSyncRecord
            { (runFiles env fid tableId rowId fieldName files w₀).2 with
              log := OpLog.empty }.ledger f.id =
            some (expFailed env fid tableId rowId fieldName f)) := by
      intro f hf
      constructor
      · intro hs
        refine ⟨?_, p3 f hf hs⟩
        have h := p2 f hf
        rw [if_pos hs] at h
        exact h
      · intro hs
        have h := p2 f hf
        rw [if_neg (by rw [hs]; exact Bool.false_ne_true)] at h
        exact h
    obtain ⟨q1, q2⟩ := runFiles_stable env fid tableId rowId fieldName files
      { (runFiles env fid tableId rowId fieldName files w₀).2 with log := OpLog.empty }
      hids hhash hstable
    refine ⟨FileUrls env tableId rowId files,
      (runFiles env fid tableId rowId fieldName files w₀).2,
      (runFiles env fid tableId rowId fieldName files
        { (runFiles env fid tableId rowId fieldName files w₀).2 with
          log := OpLog.empty }).2, ?_, ?_, ?_⟩
    · rw [processImagesFromFolder_eq env folderUrl tableId rowId fieldName w₀ fid
        files hfid hcred hfiles, if_neg hemp]
      rw [← p1]
    · rw [processImagesFromFolder_eq env folderUrl tableId rowId fieldName
        { (runFiles env fid tableId rowId fieldName files w₀).2 with
          log := OpLog.empty } fid files hfid hcred hfiles, if_neg hemp]
      rw [← q1]
    · rw [q2]
      rfl

/-- Singleton folder used to exercise the amended idempotence theorem. -/
def c1File : DriveFile := ⟨"idA", "a.jpg", "image/jpeg", some "h1"⟩

/-- Environment of the idempotence witness. -/
def c1Env : SyncEnv :=
  { listFiles := fun _ => [c1File]
    download := fun _ => some 100
    resizeFetch := fun _ => none
    hasCredentials := true
    maxImageSize := 10485760
    r2PublicDomain := "https://img.example.com"
    nowTag := "t0" }

/-- Empty ledger, empty bucket, empty log. -/
def emptyWorld : World := ⟨⟨[], 1⟩, fun _ => none, OpLog.empty⟩

theorem c1_second_pass_no_writes_witness :
    ((extractDriveFolderId "https://drive.google.com/drive/folders/abc123XYZ" =
        some "abc123XYZ") ∧
      (c1Env.listFiles "abc123XYZ").filter
        (fun f => strStartsWith f.mimeType "image/") = [c1File]) ∧
    ∃ urls w₁ w₂,
      processImagesFromFolder c1Env
        "https://drive.google.com/drive/folders/abc123XYZ" 5 7 "photos"
        emptyWorld = .ok (urls, w₁) ∧
      processImagesFromFolder c1Env
        "https://drive.google.com/drive/folders/abc123XYZ" 5 7 "photos"
        { w₁ with log := OpLog.empty } = .ok (urls, w₂) ∧
      w₂.log.puts = [] :=
  ⟨⟨by decide, by decide⟩,
    c1_second_pass_no_writes c1Env
      "https://drive.google.com/drive/folders/abc123XYZ" 5 7 "photos"
      "abc123XYZ" [c1File] emptyWorld (by decide) rfl (by decide) (by decide)
      (by decide) (by decide) (by decide) (by decide)⟩

/-- A Drive file with no `md5Checksum` (the Drive API omits it for some
files; the spec's data model allows an absent content hash). -/
def c1xFile : DriveFile := ⟨"idB", "p.jpg", "image/jpeg", none⟩

/-- Environment of the idempotence counterexample: nothing changes between
the two calls. -/
def c1xEnv : SyncEnv :=
  { listFiles := fun _ => [c1xFile]
    download := fun _ => some 50
    resizeFetch := fun _ => none
    hasCredentials := true
    maxImageSize := 1000
    r2PublicDomain := "https://img.example.com"
    nowTag := "t0" }

/-- First sync call of the counterexample, from an empty state. -/
def c1xRun1 : Except String (List String × World) :=
  processImagesFromFolder c1xEnv
    "https://drive.google.com/drive/folders/abc123XYZ" 5 7 "photos" emptyWorld

/-- State after the first call, with a fresh operation log (the probe
resets its write counter between the calls). -/
def c1xMid : World :=
  match c1xRun1 with
  | .ok (_, w) => { w with log := OpLog.empty }
  | .error _ => emptyWorld

/-- Second sync call, against the unchanged remote listing and the exact
target-store and ledger state the first call produced. -/
def c1xRun2 : Except String (List String × World) :=
  processImagesFromFolder c1xEnv
    "https://drive.google.com/drive/folders/abc123XYZ" 5 7 "photos" c1xMid

/-- Put operations the second call performs. -/
def c1xSecondPuts : List String :=
  match c1xRun2 with
  | .ok (_, w) => w.log.puts
  | .error _ => []

theorem c1_counterexample :
    c1xFile.md5Checksum = none ∧
    c1xSecondPuts = ["temp/5/7/t0-idB", "5/7/p.jpg"] ∧
    c1xSecondPuts ≠ [] := by
  refine ⟨rfl, by decide, by decide⟩

/-- Claim C6: `sync` on a folder reference that lists zero image files
returns the empty list and leaves the ledger, the target store and the
operation log exactly as they were. -/
theorem c6_empty_folder_guard (env : SyncEnv) (folderUrl : String)
    (tableId rowId : Nat) (fieldName : String) (w : World) (fid : String)
    (hfid : extractDriveFolderId folderUrl = some fid)
    (hcred : env.hasCredentials = true)
    (hempty : (env.listFiles fid).filter
      (fun f => strStartsWith f.mimeType "image/") = []) :
    processImagesFromFolder env folderUrl tableId rowId fieldName w =
      .ok ([], w) := by
  rw [processImagesFromFolder_eq env folderUrl tableId rowId fieldName w fid []
    hfid hcred hempty]
  rfl

/-- Folder of the empty-folder witness: one non-image file, zero image
files. -/
def c6Env : SyncEnv :=
  { listFiles := fun _ => [⟨"doc1", "notes.txt", "text/plain", none⟩]
    download := fun _ => none
    resizeFetch := fun _ => none
    hasCredentials := true
    maxImageSize := 1000
    r2PublicDomain := "https://img.example.com"
    nowTag := "t0" }

theorem c6_empty_folder_guard_witness :
    ((extractDriveFolderId "https://drive.google.com/drive/folders/abc123XYZ" =
        some "abc123XYZ") ∧
      (c6Env.listFiles "abc123XYZ").filter
        (fun f => strStartsWith f.mimeType "image/") = []) ∧
    processImagesFromFolder c6Env
      "https://drive.google.com/drive/folders/abc123XYZ" 5 7 "photos"
      emptyWorld = .ok ([], emptyWorld) :=
  ⟨⟨by decide, by decide⟩,
    c6_empty_folder_guard c6Env
      "https://drive.google.com/drive/folders/abc123XYZ" 5 7 "photos"
      emptyWorld "abc123XYZ" (by decide) rfl (by decide)⟩

/-- Claim C9: the ledger holds at most one authoritative record per remote
id — an upsert against an id with no record inserts exactly one row and
the lookup then returns it; an upsert against an existing id changes no row
count and the lookup returns the freshly written content (the update hits
the stored row in place, replacing exactly the mutable columns); the
at-most-one-row invariant is preserved; other ids are untouched. -/
theorem c9_ledger_single_authoritative (L : Ledger) (rec : ImageSyncRecord) :
    (getImageSyncRecord L rec.google_drive_file_id = none →
      countMatching (upsertImageSyncRecord L rec) rec.google_drive_file_id = 1 ∧
      getImageSyncRecord (upsertImageSyncRecord L rec) rec.google_drive_file_id =
        some rec) ∧
    (∀ r₀, getImageSyncRecord L rec.google_drive_file_id = some r₀ →
      (upsertImageSyncRecord L rec).rows.length = L.rows.length ∧
      countMatching (upsertImageSyncRecord L rec) rec.google_drive_file_id =
        countMatching L rec.google_drive_file_id ∧
      getImageSyncRecord (upsertImageSyncRecord L rec) rec.google_drive_file_id =
        some (applyUpdate r₀ rec) ∧
      (applyUpdate r₀ rec).status = rec.status ∧
      (applyUpdate r₀ rec).md5_hash = rec.md5_hash ∧
      (applyUpdate r₀ rec).r2_url = rec.r2_url ∧
      (applyUpdate r₀ rec).r2_key = rec.r2_key) ∧
    (countMatching L rec.google_drive_file_id ≤ 1 →
      countMatching (upsertImageSyncRecord L rec) rec.google_drive_file_id ≤ 1) ∧
    (∀ fid, fid ≠ rec.google_drive_file_id →
      getImageSyncRecord (upsertImageSyncRecord L rec) fid =
        getImageSyncRecord L fid) := by
  refine ⟨?_, ?_, ?_, ?_⟩
  · intro h
    exact ⟨countMatching_upsert_insert L rec h,
      getImageSyncRecord_upsert_insert L rec h⟩
  · intro r₀ h
    refine ⟨?_, countMatching_upsert_update L rec r₀ h _,
      getImageSyncRecord_upsert_update L rec r₀ h, rfl, rfl, rfl, rfl⟩
    unfold upsertImageSyncRecord
    rw [h]
    simp
  · intro hle
    cases h : getImageSyncRecord L rec.google_drive_file_id with
    | none => rw [countMatching_upsert_insert L rec h]
    | some r₀ => rw [countMatching_upsert_update L rec r₀ h]; exact hle
  · intro fid hne
    exact getImageSyncRecord_upsert_ne L rec fid hne

/-- A stored record used by the ledger witness. -/
def c9Rec0 : ImageSyncRecord :=
  { google_drive_file_id := "f1"
    google_drive_folder_id := "dir"
    r2_url := none
    r2_key := none
    table_id := 1
    row_id := 2
    field_name := "photos"
    original_size := none
    optimized_size := none
    status := .failed
    processed_at := none
    error_message := some "boom"
    md5_hash := none
    file_name := "a.jpg" }

/-- The record a later pass writes for the same remote id. -/
def c9Rec1 : ImageSyncRecord :=
  { c9Rec0 with
    r2_url := some "https://img.example.com/1/2/a.jpg"
    r2_key := some "1/2/a.jpg"
    original_size := some 10
    optimized_size := some 10
    status := .processed
    error_message := none
    md5_hash := some "h1" }

theorem c9_ledger_single_authoritative_witness :
    (getImageSyncRecord ⟨[(0, c9Rec0)], 1⟩ c9Rec1.google_drive_file_id =
      some c9Rec0) ∧
    (upsertImageSyncRecord ⟨[(0, c9Rec0)], 1⟩ c9Rec1).rows.length = 1 ∧
    countMatching (upsertImageSyncRecord ⟨[(0, c9Rec0)], 1⟩ c9Rec1)
      c9Rec1.google_drive_file_id = countMatching ⟨[(0, c9Rec0)], 1⟩
      c9Rec1.google_drive_file_id ∧
    getImageSyncRecord (upsertImageSyncRecord ⟨[(0, c9Rec0)], 1⟩ c9Rec1)
      c9Rec1.google_drive_file_id = some (applyUpdate c9Rec0 c9Rec1) := by
  have h := (c9_ledger_single_authoritative ⟨[(0, c9Rec0)], 1⟩ c9Rec1).2.1
    c9Rec0 (by decide)
  exact ⟨by decide, h.1, h.2.1, h.2.2.1⟩

theorem delStep_foldl (deleteFails : String → Bool) :
    ∀ (keys : List String) (n : Nat) (w : World),
    (keys.foldl (delStep deleteFails) (n, w)).1 =
      n + (keys.filter fun k => !(deleteFails k)).length ∧
    (keys.foldl (delStep deleteFails) (n, w)).2.log.deletes =
      w.log.deletes ++ keys ∧
    (keys.foldl (delStep deleteFails) (n, w)).2.ledger = w.ledger := by
  intro keys
  induction keys with
  | nil => intro n w; exact ⟨rfl, by simp, rfl⟩
  | cons k ks ih =>
    intro n w
    by_cases hf : deleteFails k = true
    · have hstep : delStep deleteFails (n, w) k =
          (n, { w with log := { w.log with deletes := w.log.deletes ++ [k] } }) := by
        unfold delStep
        rw [if_pos hf]
      rw [List.foldl_cons, hstep]
      obtain ⟨ih1, ih2, ih3⟩ := ih n
        { w with log := { w.log with deletes := w.log.deletes ++ [k] } }
      refine ⟨?_, ?_, ih3⟩
      · rw [ih1]
        simp [List.filter_cons, hf]
      · rw [ih2]
        simp
    · have hstep : delStep deleteFails (n, w) k = (n + 1, delOp w k) := by
        unfold delStep
        rw [if_neg hf]
      rw [List.foldl_cons, hstep]
      obtain ⟨ih1, ih2, ih3⟩ := ih (n + 1) (delOp w k)
      refine ⟨?_, ?_, ih3⟩
      · rw [ih1]
        simp [List.filter_cons, hf]
        omega
      · rw [ih2]
        simp [delOp]

/-- Claim C8 (amended): `deleteRowImages` issues a target-store delete for
every key associated with the owner and clears every ledger record of the
owner, tolerating individual delete failures; but it returns the count of
deletes that completed without throwing, not the count of keys for which
deletion was attempted. -/
theorem c8_evict_owner (deleteFails : String → Bool) (tableId rowId : Nat)
    (w : World) :
    (deleteRowImages deleteFails tableId rowId w).1 =
      ((ownerKeys w tableId rowId).filter fun k => !(deleteFails k)).length ∧
    (deleteRowImages deleteFails tableId rowId w).2.log.deletes =
      w.log.deletes ++ ownerKeys w tableId rowId ∧
    (deleteRowImages deleteFails tableId rowId w).2.ledger.rows.filter
      (fun p => p.2.table_id == tableId && p.2.row_id == rowId) = [] := by
  obtain ⟨h1, h2, h3⟩ := delStep_foldl deleteFails (ownerKeys w tableId rowId) 0 w
  refine ⟨?_, ?_, ?_⟩
  · unfold deleteRowImages
    rw [h1]
    exact Nat.zero_add _
  · unfold deleteRowImages
    exact h2
  · unfold deleteRowImages
    dsimp only
    rw [List.filter_filter]
    rw [List.filter_eq_nil_iff]
    intro p _
    simp

/-- Owner record of the eviction counterexample. -/
def c8Rec : ImageSyncRecord :=
  { google_drive_file_id := "f8"
    google_drive_folder_id := "dir"
    r2_url := some "https://img.example.com/k1"
    r2_key := some "k1"
    table_id := 1
    row_id := 2
    field_name := "photos"
    original_size := some 10
    optimized_size := some 10
    status := .processed
    processed_at := none
    error_message := none
    md5_hash := some "h"
    file_name := "a.jpg" }

/-- One owner record with a stored key, and a bucket whose delete always
throws. -/
def c8World : World := ⟨⟨[(0, c8Rec)], 1⟩, fun _ => none, OpLog.empty⟩

theorem c8_counterexample :
    ownerKeys c8World 1 2 = ["k1"] ∧
    (deleteRowImages (fun _ => true) 1 2 c8World).2.log.deletes = ["k1"] ∧
    (deleteRowImages (fun _ => true) 1 2 c8World).1 = 0 ∧
    (0 : Nat) ≠ 1 := by
  refine ⟨by decide, by decide, by decide, by decide⟩

/-- Claim C7 (amended): the transform pipeline makes exactly one
optimization attempt per image regardless of the result size — the attempt
count therefore never exceeds the three-attempt budget the spec names — and
it never raises: it either returns a strictly-smaller accepted result (at
least five percent reduction) or falls back to the original byte length. -/
theorem c7_single_transform_attempt (env : SyncEnv) (fileId : String)
    (origSize : Nat) (tempKey : String) (w : World) :
    (optimizeImage env fileId origSize tempKey w).2.log.fetches =
      w.log.fetches ++ [fileId] ∧
    (optimizeImage env fileId origSize tempKey w).2.log.fetches.length =
      w.log.fetches.length + 1 ∧
    w.log.fetches.length + 1 ≤ w.log.fetches.length + 3 ∧
    ((optimizeImage env fileId origSize tempKey w).1.1 = origSize ∨
      ((optimizeImage env fileId origSize tempKey w).1.2 = true ∧
        100 * (optimizeImage env fileId origSize tempKey w).1.1 <
          95 * origSize)) := by
  unfold optimizeImage
  cases hrf : env.resizeFetch fileId with
  | none => exact ⟨by simp [delOp, fetchLog, putOp], by simp [delOp, fetchLog, putOp],
      by omega, Or.inl rfl⟩
  | some n =>
    dsimp only
    by_cases hlt : 100 * n < 95 * origSize
    · rw [if_pos hlt]
      exact ⟨by simp [delOp, fetchLog, putOp], by simp [delOp, fetchLog, putOp],
        by omega, Or.inr ⟨rfl, hlt⟩⟩
    · rw [if_neg hlt]
      exact ⟨by simp [delOp, fetchLog, putOp], by simp [delOp, fetchLog, putOp],
        by omega, Or.inl rfl⟩

/-- Environment of the transform-attempt counterexample: the resize fetch
returns a 2 MiB result for a 4 MiB input — above the 1 MiB target ceiling
the spec names. -/
def c7Env : SyncEnv :=
  { listFiles := fun _ => []
    download := fun _ => none
    resizeFetch := fun _ => some 2097152
    hasCredentials := true
    maxImageSize := 10485760
    r2PublicDomain := "https://img.example.com"
    nowTag := "t0" }

/-- The single optimization run of the counterexample. -/
def c7Run : (Nat × Bool) × World :=
  optimizeImage c7Env "f7" 4194304 "temp/5/7/t0-f7" emptyWorld

theorem c7_counterexample :
    c7Run.1.1 = 2097152 ∧
    1048576 < c7Run.1.1 ∧
    c7Run.2.log.fetches = ["f7"] ∧
    c7Run.2.log.fetches.length = 1 ∧
    ¬(2 ≤ c7Run.2.log.fetches.length) := by
  refine ⟨by decide, by decide, by decide, by decide, by decide⟩

theorem reprocessFile_downloads (env : SyncEnv) (folderId : String)
    (tableId rowId : Nat) (fieldName : String) (f : DriveFile) (w : World) :
    (reprocessFile env folderId tableId rowId fieldName f w).2.log.downloads =
      w.log.downloads ++ [f.id] := by
  cases hdl : env.download f.id with
  | none =>
    rw [reprocessFile_dlfail env folderId tableId rowId fieldName f w hdl]
  | some s =>
    by_cases hsz : s ≤ env.maxImageSize
    · obtain ⟨_, _, _, hlog⟩ :=
        reprocessFile_success env folderId tableId rowId fieldName f w s hdl hsz
      rw [hlog]
    · rw [reprocessFile_oversize env folderId tableId rowId fieldName f w s hdl
        (Nat.not_le.mp hsz)]

theorem reprocessFile_upload_mem (env : SyncEnv) (folderId : String)
    (tableId rowId : Nat) (fieldName : String) (f : DriveFile) (w : World)
    (s : Nat) (hdl : env.download f.id = some s) (hsz : s ≤ env.maxImageSize) :
    expKey env tableId rowId f ∈
      (reprocessFile env folderId tableId rowId fieldName f w).2.log.puts := by
  obtain ⟨_, _, _, hlog⟩ :=
    reprocessFile_success env folderId tableId rowId fieldName f w s hdl hsz
  rw [hlog]
  simp

/-- For a processed record whose stored hash differs from the remote hash,
the drift check always falls through to the reprocess tail (whatever the
probe outcome), from a world whose download and put logs match `w`. -/
theorem processFile_changed_reprocess (env : SyncEnv) (folderId : String)
    (tableId rowId : Nat) (fieldName : String) (f : DriveFile) (w : World)
    (rec : ImageSyncRecord)
    (hget : getImageSyncRecord w.ledger f.id = some rec)
    (hst : rec.status = .processed)
    (hneq : jsEqOpt rec.md5_hash f.md5Checksum = false) :
    ∃ w', (w'.log.downloads = w.log.downloads ∧ w'.log.puts = w.log.puts) ∧
      processFile env folderId tableId rowId fieldName f w =
        reprocessFile env folderId tableId rowId fieldName f w' := by
  cases hkt : truthyS rec.r2_key with
  | false =>
    exact ⟨w, ⟨rfl, rfl⟩,
      processFile_drift_nokey env folderId tableId rowId fieldName f w rec hget hst hkt⟩
  | true =>
    obtain ⟨k, hk, hkne⟩ := truthyS_elim hkt
    cases hobj : w.bucket k with
    | none =>
      exact ⟨headLog w k, ⟨rfl, rfl⟩,
        processFile_drift_missing env folderId tableId rowId fieldName f w rec k
          hget hst hk hkne hobj⟩
    | some obj =>
      refine ⟨headLog w k, ⟨rfl, rfl⟩,
        processFile_drift_resync env folderId tableId rowId fieldName f w rec k obj
          hget hst hk hkne hobj ?_⟩
      rw [hneq]
      simp

/-- Claim C2 (amended, restricted to records with status processed): if the
stored contentHash differs from the remote file's contentHash the file is
re-downloaded, and — when the download succeeds within the size cap — its
target key is re-uploaded; if the hashes are equal and no drift is detected
(key present, probe succeeds, no store-hash mismatch) the file is neither
downloaded nor uploaded. -/
theorem c2_change_detection (env : SyncEnv) (folderId : String)
    (tableId rowId : Nat) (fieldName : String) (f : DriveFile) (w : World)
    (rec : ImageSyncRecord)
    (hget : getImageSyncRecord w.ledger f.id = some rec)
    (hst : rec.status = .processed) :
    (jsEqOpt rec.md5_hash f.md5Checksum = false →
      (processFile env folderId tableId rowId fieldName f w).2.log.downloads =
        w.log.downloads ++ [f.id] ∧
      (∀ s, env.download f.id = some s → s ≤ env.maxImageSize →
        expKey env tableId rowId f ∈
          (processFile env folderId tableId rowId fieldName f w).2.log.puts)) ∧
    (∀ k obj, jsEqOpt rec.md5_hash f.md5Checksum = true →
      rec.r2_key = some k → k ≠ "" → w.bucket k = some obj →
      (truthyS rec.md5_hash && truthyS obj.hashMd5 &&
        (rec.md5_hash != obj.hashMd5)) = false →
      (processFile env folderId tableId rowId fieldName f w).2.log.downloads =
        w.log.downloads ∧
      (processFile env folderId tableId rowId fieldName f w).2.log.puts =
        w.log.puts) := by
  constructor
  · intro hneq
    obtain ⟨w', ⟨hwdl, hwpt⟩, hpf⟩ :=
      processFile_changed_reprocess env folderId tableId rowId fieldName f w rec
        hget hst hneq
    constructor
    · rw [hpf, reprocessFile_downloads, hwdl]
    · intro s hdl hsz
      rw [hpf]
      exact reprocessFile_upload_mem env folderId tableId rowId fieldName f w' s hdl hsz
  · intro k obj heq hk hkne hobj hc1
    rw [processFile_skip env folderId tableId rowId fieldName f w rec k obj
      hget hst hk hkne hobj hc1 heq]
    exact ⟨rfl, rfl⟩

/-- Remote file of the change-detection witness. -/
def c2File : DriveFile := ⟨"idC", "c.jpg", "image/jpeg", some "h2"⟩

/-- Processed record whose stored hash `h1` differs from the remote `h2`. -/
def c2Rec : ImageSyncRecord :=
  { google_drive_file_id := "idC"
    google_drive_folder_id := "dir"
    r2_url := some "https://img.example.com/5/7/c.jpg"
    r2_key := some "5/7/c.jpg"
    table_id := 5
    row_id := 7
    field_name := "photos"
    original_size := some 10
    optimized_size := some 10
    status := .processed
    processed_at := none
    error_message := none
    md5_hash := some "h1"
    file_name := "c.jpg" }

/-- Environment of the change-detection witness. -/
def c2Env : SyncEnv :=
  { listFiles := fun _ => [c2File]
    download := fun _ => some 100
    resizeFetch := fun _ => none
    hasCredentials := true
    maxImageSize := 10485760
    r2PublicDomain := "https://img.example.com"
    nowTag := "t0" }

/-- World with the stale record and the matching stored object. -/
def c2World : World :=
  ⟨⟨[(0, c2Rec)], 1⟩,
    fun k => if k = "5/7/c.jpg" then some ⟨some "h1"⟩ else none,
    OpLog.empty⟩

theorem c2_change_detection_witness :
    (getImageSyncRecord c2World.ledger c2File.id = some c2Rec ∧
      jsEqOpt c2Rec.md5_hash c2File.md5Checksum = false ∧
      c2Env.download c2File.id = some 100) ∧
    (processFile c2Env "dir" 5 7 "photos" c2File c2World).2.log.downloads =
      c2World.log.downloads ++ [c2File.id] ∧
    expKey c2Env 5 7 c2File ∈
      (processFile c2Env "dir" 5 7 "photos" c2File c2World).2.log.puts := by
  have h := (c2_change_detection c2Env "dir" 5 7 "photos" c2File c2World c2Rec
    (by decide) rfl).1 (by decide)
  exact ⟨⟨by decide, by decide, rfl⟩, h.1, h.2 100 rfl (by decide)⟩

/-- Remote file of the change-detection counterexample. -/
def c2xFile : DriveFile := ⟨"idC", "c.jpg", "image/jpeg", some "h"⟩

/-- Failed record whose stored hash equals the remote hash (a download
failure stores the remote hash) and which retains no URL or key. -/
def c2xRec : ImageSyncRecord :=
  { google_drive_file_id := "idC"
    google_drive_folder_id := "dir"
    r2_url := none
    r2_key := none
    table_id := 5
    row_id := 7
    field_name := "photos"
    original_size := none
    optimized_size := none
    status := .failed
    processed_at := none
    error_message := some "Download failed"
    md5_hash := some "h"
    file_name := "c.jpg" }

/-- Environment of the change-detection counterexample. -/
def c2xEnv : SyncEnv :=
  { listFiles := fun _ => [c2xFile]
    download := fun _ => some 100
    resizeFetch := fun _ => none
    hasCredentials := true
    maxImageSize := 10485760
    r2PublicDomain := "https://img.example.com"
    nowTag := "t0" }

/-- World of the change-detection counterexample. -/
def c2xWorld : World := ⟨⟨[(0, c2xRec)], 1⟩, fun _ => none, OpLog.empty⟩

/-- The sync pass of the change-detection counterexample. -/
def c2xRun : Except String (List String × World) :=
  processImagesFromFolder c2xEnv
    "https://drive.google.com/drive/folders/abc123XYZ" 5 7 "photos" c2xWorld

theorem c2_counterexample :
    jsEqOpt c2xRec.md5_hash c2xFile.md5Checksum = true ∧
    getImageSyncRecord c2xWorld.ledger c2xFile.id = some c2xRec ∧
    (match c2xRun with
      | .ok (_, w) => w.log.downloads
      | .error _ => []) = ["idC"] ∧
    (["idC"] : List String) ≠ [] := by
  refine ⟨by decide, by decide, by decide, by decide⟩

theorem recoveredRecord_fid (env : SyncEnv) (rec : ImageSyncRecord)
    (folderId : String) (tableId rowId : Nat) (fieldName : String)
    (f : DriveFile) :
    (recoveredRecord env rec folderId tableId rowId fieldName f).google_drive_file_id =
      f.id := rfl

/-- Claim C4 (amended): a Failed record is cheaply recovered only when both
its targetKey and its targetRef are present and the probe succeeds — the
record is then promoted to Processed and its stored URL reused with no
download and no upload; when the targetRef or targetKey is absent, or the
probe fails, the file falls through to full reprocessing (a fresh
download). -/
theorem c4_failed_recovery (env : SyncEnv) (folderId : String)
    (tableId rowId : Nat) (fieldName : String) (f : DriveFile) (w : World)
    (rec : ImageSyncRecord)
    (hget : getImageSyncRecord w.ledger f.id = some rec)
    (hst : rec.status = .failed) :
    (∀ k obj, truthyS rec.r2_url = true → rec.r2_key = some k → k ≠ "" →
      w.bucket k = some obj →
      (processFile env folderId tableId rowId fieldName f w).1 = rec.r2_url ∧
      (processFile env folderId tableId rowId fieldName f w).2.log.downloads =
        w.log.downloads ∧
      (processFile env folderId tableId rowId fieldName f w).2.log.puts =
        w.log.puts ∧
      getImageSyncRecord
        (processFile env folderId tableId rowId fieldName f w).2.ledger f.id =
        some (applyUpdate rec
          (recoveredRecord env rec folderId tableId rowId fieldName f)) ∧
      (applyUpdate rec
        (recoveredRecord env rec folderId tableId rowId fieldName f)).status =
        .processed ∧
      (applyUpdate rec
        (recoveredRecord env rec folderId tableId rowId fieldName f)).r2_url =
        rec.r2_url) ∧
    ((truthyS rec.r2_url && truthyS rec.r2_key) = false →
      (processFile env folderId tableId rowId fieldName f w).2.log.downloads =
        w.log.downloads ++ [f.id]) ∧
    (∀ k, truthyS rec.r2_url = true → rec.r2_key = some k → k ≠ "" →
      w.bucket k = none →
      (processFile env folderId tableId rowId fieldName f w).2.log.downloads =
        w.log.downloads ++ [f.id]) := by
  refine ⟨?_, ?_, ?_⟩
  · intro k obj hu hk hkne hobj
    rw [processFile_failed_recover env folderId tableId rowId fieldName f w rec k obj
      hget hst hu hk hkne hobj]
    refine ⟨rfl, rfl, rfl, ?_, rfl, rfl⟩
    show getImageSyncRecord
      (upsertImageSyncRecord (headLog w k).ledger
        (recoveredRecord env rec folderId tableId rowId fieldName f)) f.id = _
    have h := getImageSyncRecord_upsert_update (headLog w k).ledger
      (recoveredRecord env rec folderId tableId rowId fieldName f) rec
      (by rw [recoveredRecord_fid]; exact hget)
    rw [recoveredRecord_fid] at h
    exact h
  · intro hguard
    rw [processFile_failed_noguard env folderId tableId rowId fieldName f w rec
      hget hst hguard]
    exact reprocessFile_downloads env folderId tableId rowId fieldName f w
  · intro k hu hk hkne hmiss
    rw [processFile_failed_probe_missing env folderId tableId rowId fieldName f w
      rec k hget hst hu hk hkne hmiss]
    exact reprocessFile_downloads env folderId tableId rowId fieldName f
      (headLog w k)

/-- Failed record of the recovery witness: URL and key retained from a
partially successful earlier attempt. -/
def c4Rec : ImageSyncRecord :=
  { google_drive_file_id := "idD"
    google_drive_folder_id := "dir"
    r2_url := some "https://img.example.com/5/7/d.jpg"
    r2_key := some "5/7/d.jpg"
    table_id := 5
    row_id := 7
    field_name := "photos"
    original_size := some 10
    optimized_size := some 10
    status := .failed
    processed_at := none
    error_message := some "R2 upload failed: timeout"
    md5_hash := some "h"
    file_name := "d.jpg" }

/-- Remote file of the recovery witness. -/
def c4File : DriveFile := ⟨"idD", "d.jpg", "image/jpeg", some "h"⟩

/-- Environment of the recovery witness. -/
def c4Env : SyncEnv :=
  { listFiles := fun _ => [c4File]
    download := fun _ => some 100
    resizeFetch := fun _ => none
    hasCredentials := true
    maxImageSize := 10485760
    r2PublicDomain := "https://img.example.com"
    nowTag := "t0" }

/-- World of the recovery witness: the object at the stored key still
exists. -/
def c4World : World :=
  ⟨⟨[(0, c4Rec)], 1⟩,
    fun k => if k = "5/7/d.jpg" then some ⟨some "h"⟩ else none,
    OpLog.empty⟩

theorem c4_failed_recovery_witness :
    (getImageSyncRecord c4World.ledger c4File.id = some c4Rec ∧
      c4Rec.status = .failed ∧ truthyS c4Rec.r2_url = true ∧
      c4Rec.r2_key = some "5/7/d.jpg" ∧
      c4World.bucket "5/7/d.jpg" = some ⟨some "h"⟩) ∧
    (processFile c4Env "dir" 5 7 "photos" c4File c4World).1 = c4Rec.r2_url ∧
    (processFile c4Env "dir" 5 7 "photos" c4File c4World).2.log.downloads = [] ∧
    (processFile c4Env "dir" 5 7 "photos" c4File c4World).2.log.puts = [] ∧
    getImageSyncRecord
      (processFile c4Env "dir" 5 7 "photos" c4File c4World).2.ledger c4File.id =
      some (applyUpdate c4Rec
        (recoveredRecord c4Env c4Rec "dir" 5 7 "photos" c4File)) ∧
    (applyUpdate c4Rec
      (recoveredRecord c4Env c4Rec "dir" 5 7 "photos" c4File)).status =
      .processed := by
  have h := (c4_failed_recovery c4Env "dir" 5 7 "photos" c4File c4World c4Rec
    (by decide) rfl).1 "5/7/d.jpg" ⟨some "h"⟩ (by decide) rfl (by decide) (by decide)
  exact ⟨⟨by decide, rfl, by decide, rfl, by decide⟩, h.1, h.2.1, h.2.2.1,
    h.2.2.2.1, h.2.2.2.2.1⟩

/-- Failed record of the recovery counterexample: the key is present but
the URL column is null, as the claim does not require the URL. -/
def c4xRec : ImageSyncRecord :=
  { google_drive_file_id := "idE"
    google_drive_folder_id := "dir"
    r2_url := none
    r2_key := some "5/7/e.jpg"
    table_id := 5
    row_id := 7
    field_name := "photos"
    original_size := some 10
    optimized_size := some 10
    status := .failed
    processed_at := none
    error_message := some "boom"
    md5_hash := some "h"
    file_name := "e.jpg" }

/-- Remote file of the recovery counterexample. -/
def c4xFile : DriveFile := ⟨"idE", "e.jpg", "image/jpeg", some "h"⟩

/-- Environment of the recovery counterexample. -/
def c4xEnv : SyncEnv :=
  { listFiles := fun _ => [c4xFile]
    download := fun _ => some 100
    resizeFetch := fun _ => none
    hasCredentials := true
    maxImageSize := 10485760
    r2PublicDomain := "https://img.example.com"
    nowTag := "t0" }

/-- World of the recovery counterexample: the stored key's object exists,
so the probe would succeed. -/
def c4xWorld : World :=
  ⟨⟨[(0, c4xRec)], 1⟩,
    fun k => if k = "5/7/e.jpg" then some ⟨some "h"⟩ else none,
    OpLog.empty⟩

theorem c4_counterexample :
    c4xRec.status = .failed ∧
    c4xRec.r2_key = some "5/7/e.jpg" ∧
    c4xWorld.bucket "5/7/e.jpg" = some ⟨some "h"⟩ ∧
    getImageSyncRecord c4xWorld.ledger c4xFile.id = some c4xRec ∧
    (processFile c4xEnv "dir" 5 7 "photos" c4xFile c4xWorld).2.log.downloads =
      ["idE"] ∧
    (["idE"] : List String) ≠ [] := by
  refine ⟨rfl, rfl, by decide, by decide, by decide, by decide⟩

/-- Claim C10: a file whose processed record passes every drift check with
matching hashes but stores a null targetRef is skipped silently — no
download, no upload, no ledger write, and no reference contributed to the
returned list. -/
theorem c10_null_url_silent_skip (env : SyncEnv) (folderId : String)
    (tableId rowId : Nat) (fieldName : String) (f : DriveFile) (w : World)
    (rec : ImageSyncRecord) (k : String) (obj : R2Obj)
    (hget : getImageSyncRecord w.ledger f.id = some rec)
    (hst : rec.status = .processed)
    (hk : rec.r2_key = some k) (hkne : k ≠ "")
    (hobj : w.bucket k = some obj)
    (hc1 : (truthyS rec.md5_hash && truthyS obj.hashMd5 &&
      (rec.md5_hash != obj.hashMd5)) = false)
    (heq : jsEqOpt rec.md5_hash f.md5Checksum = true)
    (hurl : rec.r2_url = none) :
    processFile env folderId tableId rowId fieldName f w = (none, headLog w k) := by
  rw [processFile_skip env folderId tableId rowId fieldName f w rec k obj
    hget hst hk hkne hobj hc1 heq]
  rw [hurl]
  rfl

/-- Processed record of the null-URL witness: clean in every respect but
with a null `r2_url`. -/
def c10Rec : ImageSyncRecord :=
  { google_drive_file_id := "idF"
    google_drive_folder_id := "dir"
    r2_url := none
    r2_key := some "5/7/f.jpg"
    table_id := 5
    row_id := 7
    field_name := "photos"
    original_size := some 10
    optimized_size := some 10
    status := .processed
    processed_at := none
    error_message := none
    md5_hash := some "h"
    file_name := "f.jpg" }

/-- Remote file of the null-URL witness, hash unchanged. -/
def c10File : DriveFile := ⟨"idF", "f.jpg", "image/jpeg", some "h"⟩

/-- Environment of the null-URL witness. -/
def c10Env : SyncEnv :=
  { listFiles := fun _ => [c10File]
    download := fun _ => some 100
    resizeFetch := fun _ => none
    hasCredentials := true
    maxImageSize := 10485760
    r2PublicDomain := "https://img.example.com"
    nowTag := "t0" }

/-- World of the null-URL witness. -/
def c10World : World :=
  ⟨⟨[(0, c10Rec)], 1⟩,
    fun k => if k = "5/7/f.jpg" then some ⟨some "h"⟩ else none,
    OpLog.empty⟩

theorem c10_null_url_silent_skip_witness :
    (getImageSyncRecord c10World.ledger c10File.id = some c10Rec ∧
      c10Rec.status = .processed ∧ c10Rec.r2_url = none ∧
      jsEqOpt c10Rec.md5_hash c10File.md5Checksum = true ∧
      c10World.bucket "5/7/f.jpg" = some ⟨some "h"⟩) ∧
    processFile c10Env "dir" 5 7 "photos" c10File c10World =
      (none, headLog c10World "5/7/f.jpg") :=
  ⟨⟨by decide, rfl, rfl, by decide, by decide⟩,
    c10_null_url_silent_skip c10Env "dir" 5 7 "photos" c10File c10World c10Rec
      "5/7/f.jpg" ⟨some "h"⟩ (by decide) rfl rfl (by decide) (by decide)
      (by decide) (by decide) rfl⟩

theorem fileUrls_length (env : SyncEnv) (tableId rowId : Nat) :
    ∀ fs : List DriveFile,
    (FileUrls env tableId rowId fs).length =
      fs.countP (fun g => isSuccess env g) := by
  intro fs
  induction fs with
  | nil => rfl
  | cons f fs ih =>
    by_cases hs : isSuccess env f = true <;>
      simp [FileUrls, List.filterMap_cons, hs, List.countP_cons] at ih ⊢ <;>
      omega

theorem countP_single_fail (env : SyncEnv) :
    ∀ (fs : List DriveFile) (j : DriveFile), j ∈ fs →
    (fs.map DriveFile.id).Nodup →
    isSuccess env j = false →
    (∀ g ∈ fs, g.id ≠ j.id → isSuccess env g = true) →
    fs.countP (fun g => isSuccess env g) + 1 = fs.length ∧
    fs.countP (fun g => !(isSuccess env g)) = 1 := by
  intro fs
  induction fs with
  | nil => intro j hj; cases hj
  | cons f fs ih =>
    intro j hj hnd hjf hrest
    have hfid_notin : f.id ∉ fs.map DriveFile.id := (List.nodup_cons.mp hnd).1
    have hnd' : (fs.map DriveFile.id).Nodup := (List.nodup_cons.mp hnd).2
    rcases List.mem_cons.mp hj with rfl | hjmem
    · have hall : ∀ g ∈ fs, isSuccess env g = true := by
        intro g hg
        refine hrest g (List.mem_cons_of_mem j hg) ?_
        intro hcontra
        exact hfid_notin (hcontra ▸ List.mem_map_of_mem DriveFile.id hg)
      have hcnt : fs.countP (fun g => isSuccess env g) = fs.length :=
        List.countP_eq_length.mpr (fun g hg => by simpa using hall g hg)
      have hcnt0 : fs.countP (fun g => !(isSuccess env g)) = 0 := by
        rw [List.countP_eq_zero]
        intro g hg
        simp [hall g hg]
      constructor
      · rw [List.countP_cons]
        simp [hjf, hcnt]
      · rw [List.countP_cons]
        simp [hjf, hcnt0]
    · have hfne : f.id ≠ j.id := by
        intro hcontra
        exact hfid_notin (by rw [hcontra]; exact List.mem_map_of_mem DriveFile.id hjmem)
      have hfs : isSuccess env f = true := hrest f (List.mem_cons_self f fs) hfne
      have hrest' : ∀ g ∈ fs, g.id ≠ j.id → isSuccess env g = true := fun g hg =>
        hrest g (List.mem_cons_of_mem f hg)
      obtain ⟨ih1, ih2⟩ := ih j hjmem hnd' hjf hrest'
      constructor
      · rw [List.countP_cons]
        simp [hfs]
        omega
      · rw [List.countP_cons]
        simp [hfs, ih2]

/-- Claim C5: over a fresh folder in which exactly one file's download
fails and the rest succeed, `sync` returns without raising, the reference
list is one short of the file count, and exactly one Failed ledger entry is
recorded among the listed files — carrying the download error detail. -/
theorem c5_partial_failure_isolation (env : SyncEnv) (folderUrl : String)
    (tableId rowId : Nat) (fieldName : String) (fid : String)
    (files : List DriveFile) (j : DriveFile) (w₀ : World)
    (hfid : extractDriveFolderId folderUrl = some fid)
    (hcred : env.hasCredentials = true)
    (hfiles : (env.listFiles fid).filter
      (fun f => strStartsWith f.mimeType "image/") = files)
    (hfresh : ∀ f ∈ files, getImageSyncRecord w₀.ledger f.id = none)
    (hids : (files.map DriveFile.id).Nodup)
    (hkeys : ∀ f ∈ files, ∀ g ∈ files, f.id ≠ g.id →
      expKey env tableId rowId f ≠ expKey env tableId rowId g)
    (htemp : ∀ f ∈ files, ∀ g ∈ files,
      tempKeyFor env tableId rowId f ≠ expKey env tableId rowId g)
    (hjmem : j ∈ files)
    (hjdl : env.download j.id = none)
    (hrest : ∀ g ∈ files, g.id ≠ j.id → isSuccess env g = true) :
    ∃ urls w₁,
      processImagesFromFolder env folderUrl tableId rowId fieldName w₀ =
        .ok (urls, w₁) ∧
      urls.length + 1 = files.length ∧
      (files.filter fun g =>
        match getImageSyncRecord w₁.ledger g.id with
        | some r => r.status == SyncStatus.failed
        | none => false).length = 1 ∧
      getImageSyncRecord w₁.ledger j.id =
        some (expFailed env fid tableId rowId fieldName j) ∧
      (expFailed env fid tableId rowId fieldName j).error_message =
        some dlErrorMsg := by
  have hjs : isSuccess env j = false := by unfold isSuccess; rw [hjdl]
  have hemp : ¬(files.isEmpty = true) := by
    cases files with
    | nil => cases hjmem
    | cons a as => simp
  obtain ⟨p1, p2, _, _, _⟩ :=
    runFiles_fresh env fid tableId rowId fieldName files w₀ hfresh hids hkeys htemp
  obtain ⟨hc1, hc2⟩ := countP_single_fail env files j hjmem hids hjs hrest
  refine ⟨FileUrls env tableId rowId files,
    (runFiles env fid tableId rowId fieldName files w₀).2, ?_, ?_, ?_, ?_, ?_⟩
  · rw [processImagesFromFolder_eq env folderUrl tableId rowId fieldName w₀ fid
      files hfid hcred hfiles, if_neg hemp, ← p1]
  · rw [fileUrls_length]
    exact hc1
  · have hcong : (files.filter fun g =>
        match getImageSyncRecord
          (runFiles env fid tableId rowId fieldName files w₀).2.ledger g.id with
        | some r => r.status == SyncStatus.failed
        | none => false) =
        files.filter fun g => !(isSuccess env g) := by
      refine List.filter_congr ?_
      intro g hg
      rw [p2 g hg]
      by_cases hgs : isSuccess env g = true
      · rw [if_pos hgs]
        simp [hgs, expRecord, processedRec]
      · rw [if_neg hgs]
        simp [expFailed_status]
        simpa using hgs
    rw [hcong, ← List.countP_eq_length_filter]
    exact hc2
  · have h := p2 j hjmem
    rw [if_neg (by rw [hjs]; exact Bool.false_ne_true)] at h
    exact h
  · unfold expFailed
    rw [hjdl]
    rfl

/-- First file of the partial-failure witness (succeeds). -/
def c5A : DriveFile := ⟨"idA5", "a.jpg", "image/jpeg", some "ha"⟩

/-- Second file of the partial-failure witness (its download fails). -/
def c5B : DriveFile := ⟨"idB5", "b.jpg", "image/jpeg", some "hb"⟩

/-- Third file of the partial-failure witness (succeeds). -/
def c5C : DriveFile := ⟨"idC5", "c.jpg", "image/jpeg", some "hc"⟩

/-- Environment of the partial-failure witness: exactly one download
throws. -/
def c5Env : SyncEnv :=
  { listFiles := fun _ => [c5A, c5B, c5C]
    download := fun i => if i == "idB5" then none else some 100
    resizeFetch := fun _ => none
    hasCredentials := true
    maxImageSize := 10485760
    r2PublicDomain := "https://img.example.com"
    nowTag := "t0" }

theorem c5_partial_failure_isolation_witness :
    ((c5Env.listFiles "abc123XYZ").filter
        (fun f => strStartsWith f.mimeType "image/") = [c5A, c5B, c5C] ∧
      c5Env.download c5B.id = none ∧
      (([c5A, c5B, c5C].map DriveFile.id).Nodup)) ∧
    ∃ urls w₁,
      processImagesFromFolder c5Env
        "https://drive.google.com/drive/folders/abc123XYZ" 5 7 "photos"
        emptyWorld = .ok (urls, w₁) ∧
      urls.length + 1 = [c5A, c5B, c5C].length ∧
      ([c5A, c5B, c5C].filter fun g =>
        match getImageSyncRecord w₁.ledger g.id with
        | some r => r.status == SyncStatus.failed
        | none => false).length = 1 ∧
      getImageSyncRecord w₁.ledger c5B.id =
        some (expFailed c5Env "abc123XYZ" 5 7 "photos" c5B) ∧
      (expFailed c5Env "abc123XYZ" 5 7 "photos" c5B).error_message =
        some dlErrorMsg :=
  ⟨⟨by decide, rfl, by decide⟩,
    c5_partial_failure_isolation c5Env
      "https://drive.google.com/drive/folders/abc123XYZ" 5 7 "photos"
      "abc123XYZ" [c5A, c5B, c5C] c5B emptyWorld (by decide) rfl (by decide)
      (by decide) (by decide) (by decide) (by decide) (by decide) rfl
      (by decide)⟩

theorem runFiles_append (env : SyncEnv) (folderId : String) (tableId rowId : Nat)
    (fieldName : String) :
    ∀ (xs ys : List DriveFile) (w : World),
    runFiles env folderId tableId rowId fieldName (xs ++ ys) w =
      ((runFiles env folderId tableId rowId fieldName xs w).1 ++
        (runFiles env folderId tableId rowId fieldName ys
          (runFiles env folderId tableId rowId fieldName xs w).2).1,
       (runFiles env folderId tableId rowId fieldName ys
         (runFiles env folderId tableId rowId fieldName xs w).2).2) := by
  intro xs
  induction xs with
  | nil => intro ys w; rfl
  | cons f xs ih =>
    intro ys w
    rw [List.cons_append, runFiles_cons, runFiles_cons, ih]
    cases (processFile env folderId tableId rowId fieldName f w).1 <;> simp

/-- A pass over files that are all clean (processed record, matching
hashes, object present) changes neither the ledger nor the bucket, adds no
put and no download, and returns their stored URLs in order. -/
theorem runFiles_clean (env : SyncEnv) (folderId : String) (tableId rowId : Nat)
    (fieldName : String) (H K U : DriveFile → String) :
    ∀ (fs : List DriveFile) (w : World),
    (∀ f ∈ fs, f.md5Checksum = some (H f) ∧ H f ≠ "" ∧ K f ≠ "" ∧ U f ≠ "" ∧
      (∃ rec, getImageSyncRecord w.ledger f.id = some rec ∧
        rec.status = .processed ∧ rec.md5_hash = some (H f) ∧
        rec.r2_key = some (K f) ∧ rec.r2_url = some (U f)) ∧
      w.bucket (K f) = some ⟨some (H f)⟩) →
    (runFiles env folderId tableId rowId fieldName fs w).1 = fs.map U ∧
    (runFiles env folderId tableId rowId fieldName fs w).2.ledger = w.ledger ∧
    (runFiles env folderId tableId rowId fieldName fs w).2.bucket = w.bucket ∧
    (runFiles env folderId tableId rowId fieldName fs w).2.log.puts =
      w.log.puts ∧
    (runFiles env folderId tableId rowId fieldName fs w).2.log.downloads =
      w.log.downloads := by
  intro fs
  induction fs with
  | nil => intro w _; exact ⟨rfl, rfl, rfl, rfl, rfl⟩
  | cons f fs ih =>
    intro w hclean
    obtain ⟨hmd5, hHne, hKne, hUne, ⟨rec, hget, hst, hrmd5, hrk, hru⟩, hbuck⟩ :=
      hclean f (List.mem_cons_self f fs)
    have hc1 : (truthyS rec.md5_hash && truthyS (R2Obj.mk (some (H f))).hashMd5 &&
        (rec.md5_hash != (R2Obj.mk (some (H f))).hashMd5)) = false := by
      rw [hrmd5]
      simp
    have heq : jsEqOpt rec.md5_hash f.md5Checksum = true := by
      rw [hrmd5, hmd5]
      simp [jsEqOpt]
    have hskip := processFile_skip env folderId tableId rowId fieldName f w rec
      (K f) ⟨some (H f)⟩ hget hst hrk hKne hbuck hc1 heq
    have hurl_truthy : truthyS rec.r2_url = true := by
      rw [hru]
      simp [truthyS]
      exact hUne
    have hpf1 : (processFile env folderId tableId rowId fieldName f w).1 =
        some (U f) := by
      rw [hskip]
      dsimp only
      rw [if_pos hurl_truthy, hru]
    have hpf2 : (processFile env folderId tableId rowId fieldName f w).2 =
        headLog w (K f) := by
      rw [hskip]
    have hclean' : ∀ g ∈ fs, g.md5Checksum = some (H g) ∧ H g ≠ "" ∧ K g ≠ "" ∧
        U g ≠ "" ∧
        (∃ rec, getImageSyncRecord (headLog w (K f)).ledger g.id = some rec ∧
          rec.status = .processed ∧ rec.md5_hash = some (H g) ∧
          rec.r2_key = some (K g) ∧ rec.r2_url = some (U g)) ∧
        (headLog w (K f)).bucket (K g) = some ⟨some (H g)⟩ := by
      intro g hg
      exact hclean g (List.mem_cons_of_mem f hg)
    obtain ⟨ih1, ih2, ih3, ih4, ih5⟩ := ih (headLog w (K f)) hclean'
    refine ⟨?_, ?_, ?_, ?_, ?_⟩
    · rw [runFiles_cons, hpf1, hpf2]
      simp [ih1]
    · rw [runFiles_cons, hpf2, ih2]
      rfl
    · rw [runFiles_cons, hpf2, ih3]
      rfl
    · rw [runFiles_cons, hpf2, ih4]
      rfl
    · rw [runFiles_cons, hpf2, ih5]
      rfl

/-- Claim C3: when one file's processed record has drifted (its target key
is absent, or the object at its key was deleted out-of-band) while every
other listed file is clean, the next sync pass downloads and re-uploads
exactly the drifted file, and the other files contribute their stored
references unchanged, in order. -/
theorem c3_drift_self_healing (env : SyncEnv) (folderUrl : String)
    (tableId rowId : Nat) (fieldName : String) (fid : String)
    (pre post : List DriveFile) (j : DriveFile) (s : Nat) (w : World)
    (H K U : DriveFile → String) (recj : ImageSyncRecord)
    (hfid : extractDriveFolderId folderUrl = some fid)
    (hcred : env.hasCredentials = true)
    (hfiles : (env.listFiles fid).filter
      (fun f => strStartsWith f.mimeType "image/") = pre ++ j :: post)
    (hclean : ∀ f ∈ pre ++ post,
      f.md5Checksum = some (H f) ∧ H f ≠ "" ∧ K f ≠ "" ∧ U f ≠ "" ∧
      (∃ rec, getImageSyncRecord w.ledger f.id = some rec ∧
        rec.status = .processed ∧ rec.md5_hash = some (H f) ∧
        rec.r2_key = some (K f) ∧ rec.r2_url = some (U f)) ∧
      w.bucket (K f) = some ⟨some (H f)⟩)
    (hjget : getImageSyncRecord w.ledger j.id = some recj)
    (hjst : recj.status = .processed)
    (hjdrift : truthyS recj.r2_key = false ∨
      ∃ k, recj.r2_key = some k ∧ k ≠ "" ∧ w.bucket k = none)
    (hjdl : env.download j.id = some s)
    (hjsz : s ≤ env.maxImageSize)
    (hkdisj : ∀ f ∈ pre ++ post, K f ≠ expKey env tableId rowId j ∧
      K f ≠ tempKeyFor env tableId rowId j)
    (hjid : ∀ f ∈ pre ++ post, f.id ≠ j.id) :
    ∃ w',
      processImagesFromFolder env folderUrl tableId rowId fieldName w =
        .ok (pre.map U ++ expUrl env tableId rowId j :: post.map U, w') ∧
      w'.log.downloads = w.log.downloads ++ [j.id] ∧
      w'.log.puts = w.log.puts ++
        [tempKeyFor env tableId rowId j, expKey env tableId rowId j] := by
  have hemp : ¬((pre ++ j :: post).isEmpty = true) := by simp
  -- clean pass over pre
  obtain ⟨a1, a2, a3, a4, a5⟩ := runFiles_clean env fid tableId rowId fieldName
    H K U pre w (fun f hf => hclean f (List.mem_append_left post hf))
  -- the drifted file falls through to the reprocess tail
  obtain ⟨wmid, hwl, hwb, hwp, hwd, hpfj⟩ :
      ∃ wmid, wmid.ledger = w.ledger ∧ wmid.bucket = w.bucket ∧
        wmid.log.puts =
          (runFiles env fid tableId rowId fieldName pre w).2.log.puts ∧
        wmid.log.downloads =
          (runFiles env fid tableId rowId fieldName pre w).2.log.downloads ∧
        processFile env fid tableId rowId fieldName j
          (runFiles env fid tableId rowId fieldName pre w).2 =
          reprocessFile env fid tableId rowId fieldName j wmid := by
    have hjget' : getImageSyncRecord
        (runFiles env fid tableId rowId fieldName pre w).2.ledger j.id =
        some recj := by rw [a2]; exact hjget
    rcases hjdrift with hnokey | ⟨k, hk, hkne, hmiss⟩
    · exact ⟨(runFiles env fid tableId rowId fieldName pre w).2,
        by rw [a2], by rw [a3], rfl, rfl,
        processFile_drift_nokey env fid tableId rowId fieldName j _ recj
          hjget' hjst hnokey⟩
    · have hmiss' : (runFiles env fid tableId rowId fieldName pre w).2.bucket k =
          none := by rw [a3]; exact hmiss
      exact ⟨headLog (runFiles env fid tableId rowId fieldName pre w).2 k,
        by rw [headLog, a2], by rw [headLog, a3], rfl, rfl,
        processFile_drift_missing env fid tableId rowId fieldName j _ recj k
          hjget' hjst hk hkne hmiss'⟩
  obtain ⟨r1, rl, rb, rlog⟩ :=
    reprocessFile_success env fid tableId rowId fieldName j wmid s hjdl hjsz
  -- clean pass over post, from the state after reprocessing j
  have hcleanPost : ∀ g ∈ post,
      g.md5Checksum = some (H g) ∧ H g ≠ "" ∧ K g ≠ "" ∧ U g ≠ "" ∧
      (∃ rec, getImageSyncRecord
          (reprocessFile env fid tableId rowId fieldName j wmid).2.ledger g.id =
          some rec ∧ rec.status = .processed ∧ rec.md5_hash = some (H g) ∧
        rec.r2_key = some (K g) ∧ rec.r2_url = some (U g)) ∧
      (reprocessFile env fid tableId rowId fieldName j wmid).2.bucket (K g) =
        some ⟨some (H g)⟩ := by
    intro g hg
    have hgmem : g ∈ pre ++ post := List.mem_append_right pre hg
    obtain ⟨h1, h2, h3, h4, ⟨rec, hget, hst, hmd5, hrk, hru⟩, hbuck⟩ :=
      hclean g hgmem
    refine ⟨h1, h2, h3, h4, ⟨rec, ?_, hst, hmd5, hrk, hru⟩, ?_⟩
    · rw [rl, getImageSyncRecord_upsert_ne _ _ _
        (by rw [expRecord_fid]; exact hjid g hgmem), hwl]
      exact hget
    · rw [rb (K g), if_neg (hkdisj g hgmem).1, if_neg (hkdisj g hgmem).2, hwb]
      exact hbuck
  obtain ⟨b1, _, _, b4, b5⟩ := runFiles_clean env fid tableId rowId fieldName
    H K U post (reprocessFile env fid tableId rowId fieldName j wmid).2 hcleanPost
  refine ⟨(runFiles env fid tableId rowId fieldName post
    (reprocessFile env fid tableId rowId fieldName j wmid).2).2, ?_, ?_, ?_⟩
  · rw [processImagesFromFolder_eq env folderUrl tableId rowId fieldName w fid
      (pre ++ j :: post) hfid hcred hfiles, if_neg hemp]
    rw [runFiles_append, runFiles_cons, hpfj, r1, a1, b1]
  · rw [b5, rlog, hwd, a5]
  · rw [b4, rlog, hwp, a4]

/-- Clean first file of the drift witness. -/
def c3A : DriveFile := ⟨"idA3", "a.jpg", "image/jpeg", some "ha"⟩

/-- Drifted file of the drift witness: its object was deleted
out-of-band. -/
def c3J : DriveFile := ⟨"idJ3", "j.jpg", "image/jpeg", some "hj"⟩

/-- Clean last file of the drift witness. -/
def c3C : DriveFile := ⟨"idC3", "c.jpg", "image/jpeg", some "hc"⟩

/-- Stored hashes of the clean files. -/
def c3H : DriveFile → String := fun f => if f.id == "idA3" then "ha" else "hc"

/-- Stored keys of the clean files. -/
def c3K : DriveFile → String :=
  fun f => if f.id == "idA3" then "5/7/a.jpg" else "5/7/c.jpg"

/-- Stored URLs of the clean files. -/
def c3U : DriveFile → String :=
  fun f =>
    if f.id == "idA3" then "https://img.example.com/5/7/a.jpg"
    else "https://img.example.com/5/7/c.jpg"

/-- Ledger record of the clean first file. -/
def c3RecA : ImageSyncRecord :=
  { google_drive_file_id := "idA3"
    google_drive_folder_id := "abc123XYZ"
    r2_url := some "https://img.example.com/5/7/a.jpg"
    r2_key := some "5/7/a.jpg"
    table_id := 5
    row_id := 7
    field_name := "photos"
    original_size := some 10
    optimized_size := some 10
    status := .processed
    processed_at := none
    error_message := none
    md5_hash := some "ha"
    file_name := "a.jpg" }

/-- Ledger record of the drifted file (still marked processed). -/
def c3RecJ : ImageSyncRecord :=
  { c3RecA with
    google_drive_file_id := "idJ3"
    r2_url := some "https://img.example.com/5/7/j.jpg"
    r2_key := some "5/7/j.jpg"
    md5_hash := some "hj"
    file_name := "j.jpg" }

/-- Ledger record of the clean last file. -/
def c3RecC : ImageSyncRecord :=
  { c3RecA with
    google_drive_file_id := "idC3"
    r2_url := some "https://img.example.com/5/7/c.jpg"
    r2_key := some "5/7/c.jpg"
    md5_hash := some "hc"
    file_name := "c.jpg" }

/-- World of the drift witness: three processed records, but the object at
the drifted file's key is gone. -/
def c3World : World :=
  ⟨⟨[(0, c3RecA), (1, c3RecJ), (2, c3RecC)], 3⟩,
    fun k =>
      if k = "5/7/a.jpg" then some ⟨some "ha"⟩
      else if k = "5/7/c.jpg" then some ⟨some "hc"⟩
      else none,
    OpLog.empty⟩

/-- Environment of the drift witness. -/
def c3Env : SyncEnv :=
  { listFiles := fun _ => [c3A, c3J, c3C]
    download := fun _ => some 100
    resizeFetch := fun _ => none
    hasCredentials := true
    maxImageSize := 10485760
    r2PublicDomain := "https://img.example.com"
    nowTag := "t0" }

theorem c3_drift_self_healing_witness :
    (getImageSyncRecord c3World.ledger c3J.id = some c3RecJ ∧
      c3RecJ.status = .processed ∧
      c3RecJ.r2_key = some "5/7/j.jpg" ∧
      c3World.bucket "5/7/j.jpg" = none ∧
      ([c3A].map c3U ++ expUrl c3Env 5 7 c3J :: [c3C].map c3U =
        ["https://img.example.com/5/7/a.jpg",
         "https://img.example.com/5/7/j.jpg",
         "https://img.example.com/5/7/c.jpg"])) ∧
    ∃ w',
      processImagesFromFolder c3Env
        "https://drive.google.com/drive/folders/abc123XYZ" 5 7 "photos"
        c3World =
        .ok ([c3A].map c3U ++ expUrl c3Env 5 7 c3J :: [c3C].map c3U, w') ∧
      w'.log.downloads = ["idJ3"] ∧
      w'.log.puts = ["temp/5/7/t0-idJ3", "5/7/j.jpg"] := by
  refine ⟨⟨by decide, rfl, rfl, by decide, by decide⟩, ?_⟩
  obtain ⟨w', h1, h2, h3⟩ := c3_drift_self_healing c3Env
    "https://drive.google.com/drive/folders/abc123XYZ" 5 7 "photos"
    "abc123XYZ" [c3A] [c3C] c3J 100 c3World c3H c3K c3U c3RecJ
    (by decide) rfl (by decide)
    (by
      intro f hf
      rcases List.mem_cons.mp hf with rfl | hf'
      · exact ⟨rfl, by decide, by decide, by decide,
          ⟨c3RecA, by decide, rfl, by decide, by decide, by decide⟩, by decide⟩
      · rcases List.mem_cons.mp hf' with rfl | hf''
        · exact ⟨rfl, by decide, by decide, by decide,
            ⟨c3RecC, by decide, rfl, by decide, by decide, by decide⟩, by decide⟩
        · cases hf'')
    (by decide) rfl
    (Or.inr ⟨"5/7/j.jpg", rfl, by decide, by decide⟩)
    rfl (by decide) (by decide) (by decide)
  refine ⟨w', h1, ?_, ?_⟩
  · rw [h2]
    rfl
  · rw [h3]
    rfl

end LeaseLab
